import Mathlib

/-!
Verification of the multi-tier discount resolution engine of the mavi5
backend (core/campaing/models.py, core/product_base/models.py,
core/product_base/api/schemas.py).

Modelling conventions:
* Python `Decimal` values are modelled as exact rationals (`ℚ`),
  timestamps (`DateTimeField`) as integers (`ℤ`).
* Every call of `timezone.now()` during one resolution is modelled by the
  single instant `DB.now` (the engine is specified per instant).
* Querysets are modelled as lists held in the order the corresponding
  query returns rows (the default model `Meta.ordering` where no explicit
  `order_by` is given).
* A raised `decimal` division exception (`DivisionByZero` /
  `InvalidOperation`, both arising exactly when the tier price is `0`) is
  modelled by `Except.error .divisionByZero`.
-/

deriving instance DecidableEq for Except

namespace Mavi

/-- Discount kind choices `TYPE = (('Amount', ...), ('Percentaje', ...))`.
A stored NULL `discount_type` behaves like the `else` (Amount) branch of
every `== 'Percentaje'` check, so it is identified with `Amount`. -/
inductive DiscountKind
  | Percentaje
  | Amount
deriving DecidableEq

/-- Campaign scope choices `CAMPAIGN_TYPE` of `DiscountCampaign`. -/
inductive CampaignType
  | global
  | category
  | products
deriving DecidableEq

/-- Error raised by `Decimal` division when the tier price is zero. -/
inductive DecimalError
  | divisionByZero
deriving DecidableEq

/-- Model of `DiscountCampaign` (core/campaing/models.py).  `categories`
and `products` hold the ids of the related rows. -/
structure Campaign where
  name : String
  campaign_type : CampaignType
  discount : ℚ
  discount_type : DiscountKind
  start_date : ℤ
  expiration_date : ℤ
  categories : List ℤ
  products : List ℤ
  is_active : Bool
  priority : ℤ
deriving DecidableEq

/-- Model of `CategoryDiscount` (core/campaing/models.py). -/
structure CategoryDiscount where
  category_id : ℤ
  name : String
  discount : ℚ
  discount_type : DiscountKind
  start_date : Option ℤ
  expiration_date : Option ℤ
  is_active : Bool
deriving DecidableEq

/-- Model of `Discount` (core/product_base/models.py), a per-product
discount row. -/
structure Discount where
  discount : Option ℚ
  discount_type : DiscountKind
  start_date : Option ℤ
  expiration_date : Option ℤ
deriving DecidableEq

/-- Model of `ProductBase`.  `product_base_discounts` is the related
queryset in its default `Meta.ordering = ['-start_date']` order.
`category_title` is the `title` of the product's category row. -/
structure Product where
  id : ℤ
  title : String
  category_id : ℤ
  category_title : String
  product_base_discounts : List Discount
deriving DecidableEq

/-- Model of `Price` (core/product_base/models.py), one quantity tier. -/
structure Price where
  product : Product
  price : ℚ
  unit : String
  discount : Option ℚ
  discount_type : DiscountKind
  quantity : ℤ
deriving DecidableEq

/-- The database rows visible to the resolver, plus the evaluation
instant.  `campaigns` is in stored (table) order; `category_discounts` is
in the default `Meta.ordering = ['-created_at']` query order. -/
structure DB where
  campaigns : List Campaign
  category_discounts : List CategoryDiscount
  now : ℤ
deriving DecidableEq

/-- `DiscountCampaign.is_currently_active` (models.py:109-115). -/
def Campaign.is_currently_active (c : Campaign) (now : ℤ) : Bool :=
  c.is_active && decide (c.start_date ≤ now) && decide (now ≤ c.expiration_date)

/-- `DiscountCampaign.applies_to_product` (models.py:117-129). -/
def Campaign.applies_to_product (c : Campaign) (now : ℤ) (product : Product) : Bool :=
  if ¬ c.is_currently_active now then false
  else
    match c.campaign_type with
    | .global => true
    | .category => c.categories.contains product.category_id
    | .products => c.products.contains product.id

/-- `DiscountCampaign.calculate_discount` (models.py:131-136). -/
def Campaign.calculate_discount (c : Campaign) (price : ℚ) : ℚ :=
  match c.discount_type with
  | .Percentaje => price * (c.discount / 100)
  | .Amount => min c.discount price

/-- `CategoryDiscount.is_currently_active` (models.py:191-204). -/
def CategoryDiscount.is_currently_active (cd : CategoryDiscount) (now : ℤ) : Bool :=
  if ¬ cd.is_active then false
  else if (match cd.start_date with | some s => decide (now < s) | none => false) then false
  else if (match cd.expiration_date with | some e => decide (e < now) | none => false) then false
  else true

/-- Python `round` on `Decimal` rounds half to even. -/
def roundHalfEven (q : ℚ) : ℤ :=
  let f : ℤ := Int.fdiv q.num (q.den : ℤ)
  let r : ℚ := q - (f : ℚ)
  if r < 1 / 2 then f
  else if 1 / 2 < r then f + 1
  else if f % 2 = 0 then f else f + 1

/-- The inline expression `round((discount_amount / original_price) * 100)`
used in every firing branch of `get_best_discount_for_price`; dividing by
a zero price raises. -/
def percentageDisplay (amount price : ℚ) : Except DecimalError ℤ :=
  if price = 0 then .error .divisionByZero
  else .ok (roundHalfEven (amount / price * 100))

/-- Value of the `'discount_source'` key of the resolver result. -/
inductive DiscountSource
  | campaign
  | category
  | product
  | price
deriving DecidableEq

/-- Value of the `'discount_name'` key; the constructors record the four
synthesized display strings:
`campaignN n` is the campaign name `n`;
`categoryN t` is `"Descuento en " ++ t` for the category title `t`;
`productN t` is `"Descuento en " ++ t` for the product title `t`;
`priceN q` is the string for `"Descuento por cantidad (q+)"`. -/
inductive DiscountName
  | campaignN (name : String)
  | categoryN (category_title : String)
  | productN (product_title : String)
  | priceN (quantity : ℤ)
deriving DecidableEq

/-- Value of the `'discount_object'` key: the winning rule row. -/
inductive DiscountObject
  | campaignObj (c : Campaign)
  | categoryObj (cd : CategoryDiscount)
  | productObj (d : Discount)
  | priceObj (p : Price)
deriving DecidableEq

/-- The dictionary returned by `DiscountManager.get_best_discount_for_price`
(models.py:222-334). -/
structure Resolution where
  discount_amount : ℚ
  discount_percentage : ℤ
  discount_source : Option DiscountSource
  discount_name : Option DiscountName
  has_discount : Bool
  discount_object : Option DiscountObject
deriving DecidableEq

/-- The `# 5. Sin descuento` dictionary (models.py:326-334). -/
def baselineResolution : Resolution :=
  { discount_amount := 0
    discount_percentage := 0
    discount_source := none
    discount_name := none
    has_discount := false
    discount_object := none }

/-- The queryset `DiscountCampaign.objects.filter(is_active=True,
start_date__lte=now, expiration_date__gte=now)` (models.py:243-247). -/
def activeCampaigns (db : DB) : List Campaign :=
  db.campaigns.filter fun c =>
    c.is_active && decide (c.start_date ≤ db.now) && decide (db.now ≤ c.expiration_date)

/-- The chained `.order_by('-priority').first()` (models.py:247).  The
explicit `order_by` replaces the model `Meta.ordering`
`['-priority', '-start_date']`, so rows are sorted by priority alone and
the relative order of equal-priority rows is whatever the database
returns, modelled as the stored order; `first()` therefore yields the
first stored active campaign of maximal priority. -/
def selectedCampaign (db : DB) : Option Campaign :=
  (activeCampaigns db).find? fun c =>
    (activeCampaigns db).all fun c2 => decide (c2.priority ≤ c.priority)

/-- Step `# 1. Verificar Campaña Global/Específica` (models.py:242-258).
Returns `some result` when this cascade level fires, `none` when the
cascade falls through to the next level. -/
def campaignStep (db : DB) (price_obj : Price) : Option (Except DecimalError Resolution) :=
  match selectedCampaign db with
  | some active_campaign =>
    if active_campaign.applies_to_product db.now price_obj.product then
      let discount_amount := active_campaign.calculate_discount price_obj.price
      some (match percentageDisplay discount_amount price_obj.price with
        | .ok pct => .ok
            { discount_amount := discount_amount
              discount_percentage := pct
              discount_source := some .campaign
              discount_name := some (.campaignN active_campaign.name)
              has_discount := true
              discount_object := some (.campaignObj active_campaign) }
        | .error e => .error e)
    else none
  | none => none

/-- Step `# 2. Verificar Descuento por Categoría` (models.py:260-279).
The queryset filters on the product's category and `is_active=True`; its
`first()` row is then re-checked with `is_currently_active()`. -/
def categoryStep (db : DB) (price_obj : Price) : Option (Except DecimalError Resolution) :=
  match (db.category_discounts.filter fun cd =>
      decide (cd.category_id = price_obj.product.category_id) && cd.is_active).head? with
  | some category_discount =>
    if category_discount.is_currently_active db.now then
      let discount_amount :=
        match category_discount.discount_type with
        | .Percentaje => price_obj.price * (category_discount.discount / 100)
        | .Amount => min category_discount.discount price_obj.price
      some (match percentageDisplay discount_amount price_obj.price with
        | .ok pct => .ok
            { discount_amount := discount_amount
              discount_percentage := pct
              discount_source := some .category
              discount_name := some (.categoryN price_obj.product.category_title)
              has_discount := true
              discount_object := some (.categoryObj category_discount) }
        | .error e => .error e)
    else none
  | none => none

/-- Step `# 3. Verificar Descuento de Producto` (models.py:281-308): the
first related `Discount` row with `discount__gt=0`, discarded again when
its optional window excludes `now`. -/
def productStep (db : DB) (price_obj : Price) : Option (Except DecimalError Resolution) :=
  match (price_obj.product.product_base_discounts.filter fun d =>
      match d.discount with
      | some v => decide (0 < v)
      | none => false).head? with
  | some product_discount =>
    if (match product_discount.start_date with
        | some s => decide (db.now < s)
        | none => false) then none
    else if (match product_discount.expiration_date with
        | some e => decide (e < db.now)
        | none => false) then none
    else
      let discount_amount :=
        match product_discount.discount_type with
        | .Percentaje => price_obj.price * (product_discount.discount.getD 0 / 100)
        | .Amount => min (product_discount.discount.getD 0) price_obj.price
      some (match percentageDisplay discount_amount price_obj.price with
        | .ok pct => .ok
            { discount_amount := discount_amount
              discount_percentage := pct
              discount_source := some .product
              discount_name := some (.productN price_obj.product.title)
              has_discount := true
              discount_object := some (.productObj product_discount) }
        | .error e => .error e)
  | none => none

/-- Step `# 4. Verificar Descuento del Precio individual`
(models.py:310-324).  The guard is Python truthiness of
`price_obj.discount`: `None` and `Decimal('0')` are falsy, every other
value (negative included) is truthy. -/
def priceStep (db : DB) (price_obj : Price) : Option (Except DecimalError Resolution) :=
  if (match price_obj.discount with
      | some v => decide (v ≠ 0)
      | none => false) then
    let discount_amount :=
      match price_obj.discount_type with
      | .Percentaje => price_obj.price * (price_obj.discount.getD 0 / 100)
      | .Amount => min (price_obj.discount.getD 0) price_obj.price
    some (match percentageDisplay discount_amount price_obj.price with
      | .ok pct => .ok
          { discount_amount := discount_amount
            discount_percentage := pct
            discount_source := some .price
            discount_name := some (.priceN price_obj.quantity)
            has_discount := true
            discount_object := some (.priceObj price_obj) }
      | .error e => .error e)
  else none

/-- `DiscountManager.get_best_discount_for_price` (models.py:222-334):
the four cascade levels in order, first firing level wins, otherwise the
no-discount baseline dictionary. -/
def get_best_discount_for_price (db : DB) (price_obj : Price) : Except DecimalError Resolution :=
  match campaignStep db price_obj with
  | some r => r
  | none =>
    match categoryStep db price_obj with
    | some r => r
    | none =>
      match productStep db price_obj with
      | some r => r
      | none =>
        match priceStep db price_obj with
        | some r => r
        | none => .ok baselineResolution

/-- `Price.price_new` (product_base/models.py:264-270). -/
def price_new (db : DB) (p : Price) : Except DecimalError ℚ :=
  match get_best_discount_for_price db p with
  | .ok info => .ok (p.price - info.discount_amount)
  | .error e => .error e

/-- `Price.price_old` (product_base/models.py:272-277). -/
def price_old (db : DB) (p : Price) : Except DecimalError (Option ℚ) :=
  match get_best_discount_for_price db p with
  | .ok info => .ok (if info.has_discount then some p.price else none)
  | .error e => .error e

/-- `Price.has_discount` (product_base/models.py:279-284). -/
def has_discount (db : DB) (p : Price) : Except DecimalError Bool :=
  match get_best_discount_for_price db p with
  | .ok info => .ok info.has_discount
  | .error e => .error e

/-- `Price.percentaje_discount` (product_base/models.py:256-262): the
displayed percentage, `None` when `has_discount` is false. -/
def percentaje_discount (db : DB) (p : Price) : Except DecimalError (Option ℤ) :=
  match get_best_discount_for_price db p with
  | .ok info => .ok (if info.has_discount then some info.discount_percentage else none)
  | .error e => .error e

/-- The singular-to-plural map `Price.UNIT_PLURAL`
(product_base/models.py:146-154). -/
def UNIT_PLURAL : List (String × String) :=
  [("Unidad", "Unidades"), ("Docena", "Docenas"), ("Caja", "Cajas"),
   ("Paquete", "Paquetes"), ("Kilogramo", "Kilogramos"), ("Metro", "Metros"),
   ("Litro", "Litros")]

/-- `Price.get_unit_display_smart` (product_base/models.py:205-218):
singular for quantity 1, otherwise the plural from `UNIT_PLURAL` with
fallback `unit + "s"`. -/
def get_unit_display_smart (p : Price) : String :=
  if p.quantity = 1 then p.unit
  else (UNIT_PLURAL.lookup p.unit).getD (p.unit ++ "s")

/-- Evaluation of a Python list comprehension whose element expression may
raise: elements are produced left to right and the first exception
propagates. -/
def mapE {α β : Type} (f : α → Except DecimalError β) : List α → Except DecimalError (List β)
  | [] => .ok []
  | a :: as =>
    match f a with
    | .error e => .error e
    | .ok b =>
      match mapE f as with
      | .error e => .error e
      | .ok bs => .ok (b :: bs)

/-- Python `min` over a list of rationals (first element of an empty list
never occurs at the call sites, which guard on non-emptiness). -/
def minQ : List ℚ → ℚ
  | [] => 0
  | x :: xs => xs.foldl (fun a b => if b < a then b else a) x

/-- Python `max` over a list of rationals. -/
def maxQ : List ℚ → ℚ
  | [] => 0
  | x :: xs => xs.foldl (fun a b => if a < b then b else a) x

/-- Python `min` over a list of integers. -/
def minZ : List ℤ → ℤ
  | [] => 0
  | x :: xs => xs.foldl (fun a b => if b < a then b else a) x

/-- Python `max` over a list of integers. -/
def maxZ : List ℤ → ℤ
  | [] => 0
  | x :: xs => xs.foldl (fun a b => if a < b then b else a) x

/-- The `for p in prices` loop of `resolve_price_range`
(api/schemas.py:211-219): every tier whose price equals the extreme
overwrites the recorded quantity, unit and smart unit label, so the last
match in list order wins. -/
def extremeFields (prices : List Price) (target : ℚ) : ℤ × Option String × Option String :=
  prices.foldl
    (fun acc p =>
      if p.price = target then (p.quantity, some p.unit, some (get_unit_display_smart p))
      else acc)
    (0, none, none)

/-- The `hasattr(discount_obj, 'expiration_date')` read of the winning
rule's expiry (api/schemas.py:274-276 and 468-475): campaigns always have
one, category and product discounts optionally, a `Price` row has no such
attribute. -/
def expirationAttr : DiscountObject → Option ℤ
  | .campaignObj c => some c.expiration_date
  | .categoryObj cd => cd.expiration_date
  | .productObj d => d.expiration_date
  | .priceObj _ => none

/-- The dictionary built by `ProductBaseOut.resolve_price_range`
(api/schemas.py:190-299).  Keys added only inside `if has_discount`
blocks are modelled as `Option` fields that are `none` when the key is
absent. -/
structure PriceRangeSummary where
  min : ℚ
  max : ℚ
  min_cantity : ℤ
  min_unit : Option String
  min_unit_smart : Option String
  max_cantity : ℤ
  max_unit : Option String
  max_unit_smart : Option String
  min_discounted : ℚ
  max_discounted : ℚ
  has_discount : Bool
  max_discount_percentage : Option ℤ
  min_discount_percentage : Option ℤ
  max_savings : Option ℚ
  min_savings : Option ℚ
  campaign_name : Option DiscountName
  discount_expires_at : Option ℤ
deriving DecidableEq

/-- One element of the savings list comprehension
`[p.price - p.price_new() for p in prices if p.has_discount()]`. -/
def savingsEntry (db : DB) (p : Price) : Except DecimalError (Option ℚ) :=
  match has_discount db p with
  | .error e => .error e
  | .ok f =>
    if f then
      match price_new db p with
      | .error e => .error e
      | .ok pn => .ok (some (p.price - pn))
    else .ok none

/-- `next((p for p in prices if p.has_discount()), None)` given the
already-computed per-tier flags. -/
def firstWithDiscount (prices : List Price) (flags : List Bool) : Option Price :=
  ((prices.zip flags).find? fun pf => pf.2).map fun pf => pf.1

/-- `ProductBaseOut.resolve_price_range` (api/schemas.py:190-299): `None`
for an empty tier list, otherwise raw min/max with the extreme tiers'
quantity and unit labels, discounted min/max, and, when some tier has a
discount, percentage and savings aggregates plus the representative name
and expiry taken from the first tier that has a discount. -/
def ProductBaseOut.resolve_price_range (db : DB) (prices : List Price) :
    Except DecimalError (Option PriceRangeSummary) :=
  if prices.isEmpty then .ok none
  else
    let price_values := prices.map fun p => p.price
    let min_price := minQ price_values
    let max_price := maxQ price_values
    let minf := extremeFields prices min_price
    let maxf := extremeFields prices max_price
    match mapE (price_new db) prices with
    | .error e => .error e
    | .ok price_new_values =>
      match mapE (has_discount db) prices with
      | .error e => .error e
      | .ok flags =>
        let hasDisc := flags.any fun b => b
        let base : PriceRangeSummary :=
          { min := min_price
            max := max_price
            min_cantity := minf.1
            min_unit := minf.2.1
            min_unit_smart := minf.2.2
            max_cantity := maxf.1
            max_unit := maxf.2.1
            max_unit_smart := maxf.2.2
            min_discounted := minQ price_new_values
            max_discounted := maxQ price_new_values
            has_discount := hasDisc
            max_discount_percentage := none
            min_discount_percentage := none
            max_savings := none
            min_savings := none
            campaign_name := none
            discount_expires_at := none }
        if hasDisc then
          match mapE (percentaje_discount db) prices with
          | .error e => .error e
          | .ok pcts =>
            match mapE (savingsEntry db) prices with
            | .error e => .error e
            | .ok savingsOpt =>
              let discount_percentages := pcts.filterMap id
              let savings_list := savingsOpt.filterMap id
              match firstWithDiscount prices flags with
              | none => .ok (some base)
              | some fp =>
                match get_best_discount_for_price db fp with
                | .error e => .error e
                | .ok discount_data =>
                  .ok (some
                    { base with
                      max_discount_percentage :=
                        if discount_percentages.isEmpty then none
                        else some (maxZ discount_percentages)
                      min_discount_percentage :=
                        if discount_percentages.isEmpty then none
                        else some (minZ discount_percentages)
                      max_savings :=
                        if savings_list.isEmpty then none
                        else some (maxQ savings_list)
                      min_savings :=
                        if savings_list.isEmpty then none
                        else some (minQ savings_list)
                      campaign_name := discount_data.discount_name
                      discount_expires_at :=
                        discount_data.discount_object.bind expirationAttr })
        else .ok (some base)

/-- The dictionary built by `ProductBaseListOut.resolve_price_range`
(api/schemas.py:370-501).  Unlike the detail variant it reports no
minimum percentage, and its percentage/savings keys are initialised to 0
rather than omitted when the respective lists are empty. -/
structure ListPriceRangeSummary where
  min : ℚ
  max : ℚ
  min_cantity : ℤ
  min_unit : Option String
  min_unit_smart : Option String
  max_cantity : ℤ
  max_unit : Option String
  max_unit_smart : Option String
  min_discounted : ℚ
  max_discounted : ℚ
  has_discount : Bool
  max_discount_percentage : Option ℤ
  max_savings : Option ℚ
  min_savings : Option ℚ
  campaign_name : Option DiscountName
  discount_expires_at : Option ℤ
deriving DecidableEq

/-- `ProductBaseListOut.resolve_price_range` (api/schemas.py:370-501). -/
def ProductBaseListOut.resolve_price_range (db : DB) (prices : List Price) :
    Except DecimalError (Option ListPriceRangeSummary) :=
  if prices.isEmpty then .ok none
  else
    let price_values := prices.map fun p => p.price
    let min_price := minQ price_values
    let max_price := maxQ price_values
    let minf := extremeFields prices min_price
    let maxf := extremeFields prices max_price
    match mapE (price_new db) prices with
    | .error e => .error e
    | .ok price_new_values =>
      match mapE (has_discount db) prices with
      | .error e => .error e
      | .ok flags =>
        let hasDisc := flags.any fun b => b
        let base : ListPriceRangeSummary :=
          { min := min_price
            max := max_price
            min_cantity := minf.1
            min_unit := minf.2.1
            min_unit_smart := minf.2.2
            max_cantity := maxf.1
            max_unit := maxf.2.1
            max_unit_smart := maxf.2.2
            min_discounted := minQ price_new_values
            max_discounted := maxQ price_new_values
            has_discount := hasDisc
            max_discount_percentage := none
            max_savings := none
            min_savings := none
            campaign_name := none
            discount_expires_at := none }
        if hasDisc then
          match mapE (percentaje_discount db) prices with
          | .error e => .error e
          | .ok pcts =>
            match mapE (savingsEntry db) prices with
            | .error e => .error e
            | .ok savingsOpt =>
              let discount_percentages := pcts.filterMap id
              let savings_list := savingsOpt.filterMap id
              let max_discount_percentage :=
                if discount_percentages.isEmpty then (0 : ℤ)
                else maxZ discount_percentages
              let max_savings :=
                if savings_list.isEmpty then (0 : ℚ) else maxQ savings_list
              let min_savings :=
                if savings_list.isEmpty then (0 : ℚ) else minQ savings_list
              match firstWithDiscount prices flags with
              | none => .ok (some
                  { base with
                    max_discount_percentage := some max_discount_percentage
                    max_savings := some max_savings
                    min_savings := some min_savings })
              | some fp =>
                match get_best_discount_for_price db fp with
                | .error e => .error e
                | .ok discount_info =>
                  .ok (some
                    { base with
                      max_discount_percentage := some max_discount_percentage
                      max_savings := some max_savings
                      min_savings := some min_savings
                      campaign_name := discount_info.discount_name
                      discount_expires_at :=
                        discount_info.discount_object.bind expirationAttr })
        else .ok (some base)

/-!
Pure views of the engine used in theorem statements.  When no tier price
is zero the monadic functions never raise, and these totalised forms give
their values.
-/

/-- The resolution of a tier, defaulting to the baseline on the (price
zero) error case. -/
def resolveOk (db : DB) (p : Price) : Resolution :=
  match get_best_discount_for_price db p with
  | .ok r => r
  | .error _ => baselineResolution

/-- Pure value of `Price.price_new`. -/
def price_newOk (db : DB) (p : Price) : ℚ :=
  p.price - (resolveOk db p).discount_amount

/-- Pure value of `Price.has_discount`. -/
def flagOk (db : DB) (p : Price) : Bool :=
  (resolveOk db p).has_discount

/-- Pure value of `Price.percentaje_discount`. -/
def pctOk (db : DB) (p : Price) : Option ℤ :=
  if (resolveOk db p).has_discount then some (resolveOk db p).discount_percentage else none

/-- Pure value of one savings-comprehension element. -/
def savingsOk (db : DB) (p : Price) : Option ℚ :=
  if (resolveOk db p).has_discount then some (p.price - price_newOk db p) else none

/-- Pure value of `ProductBaseOut.resolve_price_range` on a non-empty
tier list all of whose resolutions succeed. -/
def pureSummary (db : DB) (prices : List Price) : PriceRangeSummary :=
  let price_values := prices.map fun p => p.price
  let min_price := minQ price_values
  let max_price := maxQ price_values
  let minf := extremeFields prices min_price
  let maxf := extremeFields prices max_price
  let price_new_values := prices.map (price_newOk db)
  let flags := prices.map (flagOk db)
  let hasDisc := flags.any fun b => b
  let base : PriceRangeSummary :=
    { min := min_price
      max := max_price
      min_cantity := minf.1
      min_unit := minf.2.1
      min_unit_smart := minf.2.2
      max_cantity := maxf.1
      max_unit := maxf.2.1
      max_unit_smart := maxf.2.2
      min_discounted := minQ price_new_values
      max_discounted := maxQ price_new_values
      has_discount := hasDisc
      max_discount_percentage := none
      min_discount_percentage := none
      max_savings := none
      min_savings := none
      campaign_name := none
      discount_expires_at := none }
  if hasDisc then
    let discount_percentages := (prices.map (pctOk db)).filterMap id
    let savings_list := (prices.map (savingsOk db)).filterMap id
    match firstWithDiscount prices flags with
    | none => base
    | some fp =>
      { base with
        max_discount_percentage :=
          if discount_percentages.isEmpty then none else some (maxZ discount_percentages)
        min_discount_percentage :=
          if discount_percentages.isEmpty then none else some (minZ discount_percentages)
        max_savings :=
          if savings_list.isEmpty then none else some (maxQ savings_list)
        min_savings :=
          if savings_list.isEmpty then none else some (minQ savings_list)
        campaign_name := (resolveOk db fp).discount_name
        discount_expires_at := (resolveOk db fp).discount_object.bind expirationAttr }
  else base

/-- Pure value of `ProductBaseListOut.resolve_price_range` on a non-empty
tier list all of whose resolutions succeed. -/
def pureListSummary (db : DB) (prices : List Price) : ListPriceRangeSummary :=
  let price_values := prices.map fun p => p.price
  let min_price := minQ price_values
  let max_price := maxQ price_values
  let minf := extremeFields prices min_price
  let maxf := extremeFields prices max_price
  let price_new_values := prices.map (price_newOk db)
  let flags := prices.map (flagOk db)
  let hasDisc := flags.any fun b => b
  let base : ListPriceRangeSummary :=
    { min := min_price
      max := max_price
      min_cantity := minf.1
      min_unit := minf.2.1
      min_unit_smart := minf.2.2
      max_cantity := maxf.1
      max_unit := maxf.2.1
      max_unit_smart := maxf.2.2
      min_discounted := minQ price_new_values
      max_discounted := maxQ price_new_values
      has_discount := hasDisc
      max_discount_percentage := none
      max_savings := none
      min_savings := none
      campaign_name := none
      discount_expires_at := none }
  if hasDisc then
    let discount_percentages := (prices.map (pctOk db)).filterMap id
    let savings_list := (prices.map (savingsOk db)).filterMap id
    let max_discount_percentage :=
      if discount_percentages.isEmpty then (0 : ℤ) else maxZ discount_percentages
    let max_savings := if savings_list.isEmpty then (0 : ℚ) else maxQ savings_list
    let min_savings := if savings_list.isEmpty then (0 : ℚ) else minQ savings_list
    match firstWithDiscount prices flags with
    | none =>
      { base with
        max_discount_percentage := some max_discount_percentage
        max_savings := some max_savings
        min_savings := some min_savings }
    | some fp =>
      { base with
        max_discount_percentage := some max_discount_percentage
        max_savings := some max_savings
        min_savings := some min_savings
        campaign_name := (resolveOk db fp).discount_name
        discount_expires_at := (resolveOk db fp).discount_object.bind expirationAttr }
  else base

/-- Data assumption under which amounts cannot exceed the price: every
percentage-kind rule visible to the resolution of `p` has value at most
100.  (The engine itself never checks this; caller data is trusted.) -/
def percentagesBounded (db : DB) (p : Price) : Prop :=
  (∀ c ∈ db.campaigns, c.discount_type = .Percentaje → c.discount ≤ 100) ∧
  (∀ cd ∈ db.category_discounts, cd.discount_type = .Percentaje → cd.discount ≤ 100) ∧
  (∀ d ∈ p.product.product_base_discounts,
    d.discount_type = .Percentaje → d.discount.getD 0 ≤ 100) ∧
  (p.discount_type = .Percentaje → p.discount.getD 0 ≤ 100)

/-- Discount kind of a winning rule object. -/
def DiscountObject.kind : DiscountObject → DiscountKind
  | .campaignObj c => c.discount_type
  | .categoryObj cd => cd.discount_type
  | .productObj d => d.discount_type
  | .priceObj p => p.discount_type

/-!
Concrete instances used by the per-claim counterexamples and witnesses.
-/

/-- Product with no product discounts, category 1. -/
def prod1 : Product := ⟨1, "P1", 1, "C1", []⟩

/-- Highest-priority active campaign scoped to product id 99 only. -/
def campHi1 : Campaign := ⟨"HI", .products, 50, .Percentaje, 0, 100, [], [99], true, 10⟩

/-- Lower-priority active global campaign, applicable to every product. -/
def campLo1 : Campaign := ⟨"LO", .global, 20, .Percentaje, 0, 100, [], [], true, 1⟩

/-- Active category discount of 10 percent for category 1. -/
def cd1 : CategoryDiscount := ⟨1, "CD1", 10, .Percentaje, none, none, true⟩

def db1 : DB := ⟨[campHi1, campLo1], [cd1], 50⟩

def tier1 : Price := ⟨prod1, 100, "Unidad", none, .Amount, 10⟩

def prod2 : Product := ⟨2, "P2", 2, "C2", []⟩

/-- Active global campaign with an unclamped 200 percent discount. -/
def camp2 : Campaign := ⟨"X200", .global, 200, .Percentaje, 0, 100, [], [], true, 0⟩

def db2 : DB := ⟨[camp2], [], 50⟩

def tier2 : Price := ⟨prod2, 100, "Unidad", none, .Amount, 10⟩

def prod2w : Product := ⟨21, "P2w", 21, "C2w", []⟩

/-- Active global campaign with a bounded 20 percent discount. -/
def camp2w : Campaign := ⟨"W20", .global, 20, .Percentaje, 0, 100, [], [], true, 0⟩

def db2w : DB := ⟨[camp2w], [], 50⟩

def tier2w : Price := ⟨prod2w, 100, "Unidad", none, .Amount, 10⟩

def prod3 : Product := ⟨3, "P3", 3, "C3", []⟩

def db3 : DB := ⟨[], [], 0⟩

/-- Tier with zero price but a truthy inline discount. -/
def tier3 : Price := ⟨prod3, 0, "Unidad", some 5, .Amount, 10⟩

def prod3w : Product := ⟨31, "P3w", 31, "C3w", []⟩

def db3w : DB := ⟨[], [], 0⟩

/-- Tier with zero price and no discount rule at any level. -/
def tier3w : Price := ⟨prod3w, 0, "Unidad", none, .Amount, 10⟩

def prod4 : Product := ⟨4, "P4", 4, "C4", []⟩

/-- Stored first: priority 5, earlier start. -/
def campA4 : Campaign := ⟨"A", .global, 10, .Percentaje, 0, 100, [], [], true, 5⟩

/-- Stored second: priority 5, later start. -/
def campB4 : Campaign := ⟨"B", .global, 20, .Percentaje, 10, 100, [], [], true, 5⟩

def db4 : DB := ⟨[campA4, campB4], [], 50⟩

def tier4 : Price := ⟨prod4, 100, "Unidad", none, .Amount, 10⟩

def prod4w : Product := ⟨41, "P4w", 41, "C4w", []⟩

def camp4w : Campaign := ⟨"W4", .global, 10, .Percentaje, 0, 100, [], [], true, 3⟩

def db4w : DB := ⟨[camp4w], [], 50⟩

def tier4w : Price := ⟨prod4w, 100, "Unidad", none, .Amount, 10⟩

def prod5 : Product := ⟨5, "P5", 5, "C5", []⟩

/-- Active global campaign whose discount value is zero. -/
def campZ5 : Campaign := ⟨"Zero", .global, 0, .Percentaje, 0, 100, [], [], true, 0⟩

/-- Active category discount that the cascade should reach if zero-valued
rules were skipped. -/
def cd5 : CategoryDiscount := ⟨5, "CD5", 10, .Percentaje, none, none, true⟩

def db5 : DB := ⟨[campZ5], [cd5], 50⟩

def tier5 : Price := ⟨prod5, 100, "Unidad", none, .Amount, 10⟩

/-- Product with one positive product discount row. -/
def prod5w : Product := ⟨51, "P5w", 51, "C5w", [⟨some 5, .Amount, none, none⟩]⟩

def db5w : DB := ⟨[], [], 50⟩

/-- Tier with a negative inline discount (truthy in Python). -/
def tier5w : Price := ⟨prod5w, 100, "Unidad", some (-3), .Amount, 10⟩

def prod6 : Product := ⟨6, "P6", 6, "C6", []⟩

def db6 : DB := ⟨[], [], 0⟩

def tier6 : Price := ⟨prod6, 100, "Unidad", none, .Amount, 10⟩

def prod7 : Product := ⟨7, "P7", 7, "C7", []⟩

/-- Active global campaign whose discount value is zero. -/
def campZ7 : Campaign := ⟨"Zero7", .global, 0, .Percentaje, 0, 100, [], [], true, 0⟩

def db7 : DB := ⟨[campZ7], [], 50⟩

def tier7 : Price := ⟨prod7, 100, "Unidad", none, .Amount, 10⟩

def prod7w : Product := ⟨71, "P7w", 71, "C7w", []⟩

def db7w : DB := ⟨[], [], 0⟩

def tier7w : Price := ⟨prod7w, 100, "Unidad", none, .Amount, 10⟩

def prod8 : Product := ⟨8, "P8", 8, "C8", []⟩

def db8 : DB := ⟨[], [], 0⟩

/-- The spec example: tiers priced 10, 25 and 8 at quantities 100, 500
and 50, listed in the quantity-ascending order of the `prices` queryset. -/
def tiers8 : List Price :=
  [⟨prod8, 8, "Unidad", none, .Amount, 50⟩,
   ⟨prod8, 10, "Unidad", none, .Amount, 100⟩,
   ⟨prod8, 25, "Unidad", none, .Amount, 500⟩]

def prod9 : Product := ⟨9, "P9", 9, "C9", []⟩

def db9 : DB := ⟨[], [], 0⟩

/-- Three tiers; only the 500-quantity tier carries a 15 percent inline
discount. -/
def tiers9 : List Price :=
  [⟨prod9, 10, "Unidad", none, .Amount, 100⟩,
   ⟨prod9, 20, "Unidad", none, .Amount, 300⟩,
   ⟨prod9, 25, "Unidad", some 15, .Percentaje, 500⟩]

def prod10 : Product := ⟨10, "P10", 10, "C10", []⟩

def db10 : DB := ⟨[], [], 0⟩

/-- Two tiers sharing the (unique) price 5, quantities 10 and 20. -/
def tiers10 : List Price :=
  [⟨prod10, 5, "Caja", none, .Amount, 10⟩,
   ⟨prod10, 5, "Caja", none, .Amount, 20⟩]

/-!
Helper lemmas about the resolver.
-/

lemma percentageDisplay_error {a price : ℚ} {e : DecimalError}
    (h : percentageDisplay a price = .error e) : price = 0 := by
  unfold percentageDisplay at h
  split at h
  · assumption
  · exact absurd h (by simp)

lemma campaignStep_error {db : DB} {p : Price} {e : DecimalError}
    (h : campaignStep db p = some (.error e)) : p.price = 0 := by
  unfold campaignStep at h
  split at h
  · split at h
    · simp only [Option.some.injEq] at h
      split at h
      · exact absurd h (by simp)
      · rename_i e' hpd
        exact percentageDisplay_error hpd
    · exact absurd h (by simp)
  · exact absurd h (by simp)

lemma categoryStep_error {db : DB} {p : Price} {e : DecimalError}
    (h : categoryStep db p = some (.error e)) : p.price = 0 := by
  unfold categoryStep at h
  split at h
  · split at h
    · simp only [Option.some.injEq] at h
      split at h
      · exact absurd h (by simp)
      · rename_i e' hpd
        exact percentageDisplay_error hpd
    · exact absurd h (by simp)
  · exact absurd h (by simp)

lemma productStep_error {db : DB} {p : Price} {e : DecimalError}
    (h : productStep db p = some (.error e)) : p.price = 0 := by
  unfold productStep at h
  split at h
  · split at h
    · exact absurd h (by simp)
    · split at h
      · exact absurd h (by simp)
      · simp only [Option.some.injEq] at h
        split at h
        · exact absurd h (by simp)
        · rename_i e' hpd
          exact percentageDisplay_error hpd
  · exact absurd h (by simp)

lemma priceStep_error {db : DB} {p : Price} {e : DecimalError}
    (h : priceStep db p = some (.error e)) : p.price = 0 := by
  unfold priceStep at h
  split at h
  · simp only [Option.some.injEq] at h
    split at h
    · exact absurd h (by simp)
    · rename_i e' hpd
      exact percentageDisplay_error hpd
  · exact absurd h (by simp)

/-- The cascade structure of the resolver: its result is that of the
first firing step, or the baseline. -/
lemma get_best_cases (db : DB) (p : Price) :
    (∃ r, campaignStep db p = some r ∧ get_best_discount_for_price db p = r)
    ∨ (campaignStep db p = none ∧
        ∃ r, categoryStep db p = some r ∧ get_best_discount_for_price db p = r)
    ∨ (campaignStep db p = none ∧ categoryStep db p = none ∧
        ∃ r, productStep db p = some r ∧ get_best_discount_for_price db p = r)
    ∨ (campaignStep db p = none ∧ categoryStep db p = none ∧ productStep db p = none ∧
        ∃ r, priceStep db p = some r ∧ get_best_discount_for_price db p = r)
    ∨ (campaignStep db p = none ∧ categoryStep db p = none ∧ productStep db p = none ∧
        priceStep db p = none ∧ get_best_discount_for_price db p = .ok baselineResolution) := by
  unfold get_best_discount_for_price
  cases h1 : campaignStep db p with
  | some r => exact Or.inl ⟨r, rfl, rfl⟩
  | none =>
    cases h2 : categoryStep db p with
    | some r => exact Or.inr (Or.inl ⟨rfl, r, rfl, rfl⟩)
    | none =>
      cases h3 : productStep db p with
      | some r => exact Or.inr (Or.inr (Or.inl ⟨rfl, rfl, r, rfl, rfl⟩))
      | none =>
        cases h4 : priceStep db p with
        | some r => exact Or.inr (Or.inr (Or.inr (Or.inl ⟨rfl, rfl, rfl, r, rfl, rfl⟩)))
        | none => exact Or.inr (Or.inr (Or.inr (Or.inr ⟨rfl, rfl, rfl, rfl, rfl⟩)))

lemma get_best_error {db : DB} {p : Price} {e : DecimalError}
    (h : get_best_discount_for_price db p = .error e) : p.price = 0 := by
  rcases get_best_cases db p with ⟨r, hs, hg⟩ | ⟨_, r, hs, hg⟩ | ⟨_, _, r, hs, hg⟩
    | ⟨_, _, _, r, hs, hg⟩ | ⟨_, _, _, _, hg⟩
  · exact campaignStep_error (by rw [hs, hg.symm.trans h])
  · exact categoryStep_error (by rw [hs, hg.symm.trans h])
  · exact productStep_error (by rw [hs, hg.symm.trans h])
  · exact priceStep_error (by rw [hs, hg.symm.trans h])
  · rw [hg] at h; exact absurd h (by simp)

/-- When the tier price is nonzero the resolver never raises. -/
lemma get_best_ok (db : DB) (p : Price) (h : p.price ≠ 0) :
    get_best_discount_for_price db p = .ok (resolveOk db p) := by
  cases hg : get_best_discount_for_price db p with
  | ok r => simp [resolveOk, hg]
  | error e => exact absurd (get_best_error hg) h

lemma price_new_ok (db : DB) (p : Price) (h : p.price ≠ 0) :
    price_new db p = .ok (price_newOk db p) := by
  unfold price_new
  rw [get_best_ok db p h]
  rfl

lemma has_discount_ok (db : DB) (p : Price) (h : p.price ≠ 0) :
    has_discount db p = .ok (flagOk db p) := by
  unfold has_discount
  rw [get_best_ok db p h]
  rfl

lemma percentaje_discount_ok (db : DB) (p : Price) (h : p.price ≠ 0) :
    percentaje_discount db p = .ok (pctOk db p) := by
  unfold percentaje_discount
  rw [get_best_ok db p h]
  rfl

lemma savingsEntry_ok (db : DB) (p : Price) (h : p.price ≠ 0) :
    savingsEntry db p = .ok (savingsOk db p) := by
  unfold savingsEntry
  rw [has_discount_ok db p h, price_new_ok db p h]
  unfold savingsOk flagOk price_newOk
  cases hf : (resolveOk db p).has_discount <;> simp [hf]

lemma mapE_ok {α β : Type} (f : α → Except DecimalError β) (g : α → β) :
    ∀ l : List α, (∀ a ∈ l, f a = .ok (g a)) → mapE f l = .ok (l.map g)
  | [], _ => rfl
  | a :: as, h => by
    unfold mapE
    rw [h a (by simp), mapE_ok f g as fun x hx => h x (by simp [hx])]
    rfl

lemma firstWithDiscount_mem {prices : List Price} {flags : List Bool} {fp : Price}
    (h : firstWithDiscount prices flags = some fp) : fp ∈ prices := by
  unfold firstWithDiscount at h
  cases hf : (prices.zip flags).find? (fun pf => pf.2) with
  | none => rw [hf] at h; exact absurd h (by simp)
  | some pf =>
    rw [hf] at h
    simp only [Option.map_some', Option.some.injEq] at h
    exact h ▸ (List.of_mem_zip (List.mem_of_find?_eq_some hf)).1

/-- Normal form of the detail aggregator when every tier price is nonzero. -/
lemma resolve_price_range_eq (db : DB) (prices : List Price) (hne : prices ≠ [])
    (hp : ∀ p ∈ prices, p.price ≠ 0) :
    ProductBaseOut.resolve_price_range db prices = .ok (some (pureSummary db prices)) := by
  have hie : prices.isEmpty = false := by
    cases prices with
    | nil => exact absurd rfl hne
    | cons a l => rfl
  simp only [ProductBaseOut.resolve_price_range, pureSummary, hie, Bool.false_eq_true, if_false,
    mapE_ok (price_new db) (price_newOk db) prices (fun a ha => price_new_ok db a (hp a ha)),
    mapE_ok (has_discount db) (flagOk db) prices (fun a ha => has_discount_ok db a (hp a ha)),
    mapE_ok (percentaje_discount db) (pctOk db) prices
      (fun a ha => percentaje_discount_ok db a (hp a ha)),
    mapE_ok (savingsEntry db) (savingsOk db) prices (fun a ha => savingsEntry_ok db a (hp a ha))]
  cases hfp : firstWithDiscount prices (prices.map (flagOk db)) with
  | none =>
    simp only []
    split <;> rfl
  | some fp =>
    have hgb := get_best_ok db fp (hp fp (firstWithDiscount_mem hfp))
    simp only [hgb]
    split <;> rfl

/-- Normal form of the list aggregator when every tier price is nonzero. -/
lemma resolve_price_range_list_eq (db : DB) (prices : List Price) (hne : prices ≠ [])
    (hp : ∀ p ∈ prices, p.price ≠ 0) :
    ProductBaseListOut.resolve_price_range db prices = .ok (some (pureListSummary db prices)) := by
  have hie : prices.isEmpty = false := by
    cases prices with
    | nil => exact absurd rfl hne
    | cons a l => rfl
  simp only [ProductBaseListOut.resolve_price_range, pureListSummary, hie, Bool.false_eq_true,
    if_false,
    mapE_ok (price_new db) (price_newOk db) prices (fun a ha => price_new_ok db a (hp a ha)),
    mapE_ok (has_discount db) (flagOk db) prices (fun a ha => has_discount_ok db a (hp a ha)),
    mapE_ok (percentaje_discount db) (pctOk db) prices
      (fun a ha => percentaje_discount_ok db a (hp a ha)),
    mapE_ok (savingsEntry db) (savingsOk db) prices (fun a ha => savingsEntry_ok db a (hp a ha))]
  cases hfp : firstWithDiscount prices (prices.map (flagOk db)) with
  | none =>
    simp only []
    split <;> rfl
  | some fp =>
    have hgb := get_best_ok db fp (hp fp (firstWithDiscount_mem hfp))
    simp only [hgb]
    split <;> rfl

/-!
List utility lemmas.
-/

lemma foldl_min_le {α : Type} [LinearOrder α] :
    ∀ (xs : List α) (a : α),
      xs.foldl (fun x y => if y < x then y else x) a ≤ a ∧
      ∀ x ∈ xs, xs.foldl (fun x y => if y < x then y else x) a ≤ x
  | [], a => ⟨le_refl a, by simp⟩
  | x :: xs, a => by
    have ih := foldl_min_le xs (if x < a then x else a)
    constructor
    · have hle : (if x < a then x else a) ≤ a := by
        split
        · exact le_of_lt (by assumption)
        · exact le_refl a
      exact le_trans ih.1 hle
    · intro y hy
      rcases List.mem_cons.mp hy with hy | hy
      · subst hy
        have hle : (if y < a then y else a) ≤ y := by
          split
          · exact le_refl y
          · exact le_of_not_lt (by assumption)
        exact le_trans ih.1 hle
      · exact ih.2 y hy

lemma foldl_min_mem {α : Type} [LinearOrder α] :
    ∀ (xs : List α) (a : α),
      xs.foldl (fun x y => if y < x then y else x) a = a ∨
      xs.foldl (fun x y => if y < x then y else x) a ∈ xs
  | [], a => Or.inl rfl
  | x :: xs, a => by
    rcases foldl_min_mem xs (if x < a then x else a) with h | h
    · rw [List.foldl_cons, h]
      split
      · exact Or.inr (by simp)
      · exact Or.inl rfl
    · exact Or.inr (List.mem_cons_of_mem x h)

lemma foldl_max_ge {α : Type} [LinearOrder α] :
    ∀ (xs : List α) (a : α),
      a ≤ xs.foldl (fun x y => if x < y then y else x) a ∧
      ∀ x ∈ xs, x ≤ xs.foldl (fun x y => if x < y then y else x) a
  | [], a => ⟨le_refl a, by simp⟩
  | x :: xs, a => by
    have ih := foldl_max_ge xs (if a < x then x else a)
    constructor
    · have hle : a ≤ (if a < x then x else a) := by
        split
        · exact le_of_lt (by assumption)
        · exact le_refl a
      exact le_trans hle ih.1
    · intro y hy
      rcases List.mem_cons.mp hy with hy | hy
      · subst hy
        have hle : y ≤ (if a < y then y else a) := by
          split
          · exact le_refl y
          · exact le_of_not_lt (by assumption)
        exact le_trans hle ih.1
      · exact ih.2 y hy

lemma foldl_max_mem {α : Type} [LinearOrder α] :
    ∀ (xs : List α) (a : α),
      xs.foldl (fun x y => if x < y then y else x) a = a ∨
      xs.foldl (fun x y => if x < y then y else x) a ∈ xs
  | [], a => Or.inl rfl
  | x :: xs, a => by
    rcases foldl_max_mem xs (if a < x then x else a) with h | h
    · rw [List.foldl_cons, h]
      split
      · exact Or.inr (by simp)
      · exact Or.inl rfl
    · exact Or.inr (List.mem_cons_of_mem x h)

lemma minQ_spec (l : List ℚ) (h : l ≠ []) : minQ l ∈ l ∧ ∀ x ∈ l, minQ l ≤ x := by
  cases l with
  | nil => exact absurd rfl h
  | cons a t =>
    have e : minQ (a :: t) = t.foldl (fun x y => if y < x then y else x) a := rfl
    rw [e]
    refine ⟨?mem, ?le⟩
    · rcases foldl_min_mem t a with h1 | h1
      · rw [h1]; exact List.mem_cons_self a t
      · exact List.mem_cons_of_mem a h1
    · intro x hx
      rcases List.mem_cons.mp hx with hx | hx
      · exact hx ▸ (foldl_min_le t a).1
      · exact (foldl_min_le t a).2 x hx

lemma maxQ_spec (l : List ℚ) (h : l ≠ []) : maxQ l ∈ l ∧ ∀ x ∈ l, x ≤ maxQ l := by
  cases l with
  | nil => exact absurd rfl h
  | cons a t =>
    have e : maxQ (a :: t) = t.foldl (fun x y => if x < y then y else x) a := rfl
    rw [e]
    refine ⟨?mem, ?le⟩
    · rcases foldl_max_mem t a with h1 | h1
      · rw [h1]; exact List.mem_cons_self a t
      · exact List.mem_cons_of_mem a h1
    · intro x hx
      rcases List.mem_cons.mp hx with hx | hx
      · exact hx ▸ (foldl_max_ge t a).1
      · exact (foldl_max_ge t a).2 x hx

lemma minZ_spec (l : List ℤ) (h : l ≠ []) : minZ l ∈ l ∧ ∀ x ∈ l, minZ l ≤ x := by
  cases l with
  | nil => exact absurd rfl h
  | cons a t =>
    have e : minZ (a :: t) = t.foldl (fun x y => if y < x then y else x) a := rfl
    rw [e]
    refine ⟨?mem, ?le⟩
    · rcases foldl_min_mem t a with h1 | h1
      · rw [h1]; exact List.mem_cons_self a t
      · exact List.mem_cons_of_mem a h1
    · intro x hx
      rcases List.mem_cons.mp hx with hx | hx
      · exact hx ▸ (foldl_min_le t a).1
      · exact (foldl_min_le t a).2 x hx

lemma maxZ_spec (l : List ℤ) (h : l ≠ []) : maxZ l ∈ l ∧ ∀ x ∈ l, x ≤ maxZ l := by
  cases l with
  | nil => exact absurd rfl h
  | cons a t =>
    have e : maxZ (a :: t) = t.foldl (fun x y => if x < y then y else x) a := rfl
    rw [e]
    refine ⟨?mem, ?le⟩
    · rcases foldl_max_mem t a with h1 | h1
      · rw [h1]; exact List.mem_cons_self a t
      · exact List.mem_cons_of_mem a h1
    · intro x hx
      rcases List.mem_cons.mp hx with hx | hx
      · exact hx ▸ (foldl_max_ge t a).1
      · exact (foldl_max_ge t a).2 x hx

/-- The recorded extreme-tier fields are those of the last tier whose
price equals the target. -/
lemma extremeFields_eq (l : List Price) (t : ℚ) :
    extremeFields l t =
      match (l.filter fun p => decide (p.price = t)).getLast? with
      | some p => (p.quantity, some p.unit, some (get_unit_display_smart p))
      | none => ((0 : ℤ), (none : Option String), (none : Option String)) := by
  suffices h : ∀ acc : ℤ × Option String × Option String,
      l.foldl
        (fun acc p =>
          if p.price = t then (p.quantity, some p.unit, some (get_unit_display_smart p))
          else acc) acc =
      match (l.filter fun p => decide (p.price = t)).getLast? with
      | some p => (p.quantity, some p.unit, some (get_unit_display_smart p))
      | none => acc by
    exact h (0, none, none)
  induction l using List.reverseRecOn with
  | nil => intro acc; rfl
  | append_singleton l x ih =>
    intro acc
    rw [List.foldl_append, List.filter_append]
    by_cases hx : x.price = t
    · have hfx : List.filter (fun p => decide (p.price = t)) [x] = [x] := by simp [hx]
      rw [hfx, List.getLast?_concat]
      simp [hx]
    · have hfx : List.filter (fun p => decide (p.price = t)) [x] = [] := by simp [hx]
      rw [hfx, List.append_nil]
      simp only [List.foldl_cons, List.foldl_nil, if_neg hx]
      exact ih acc

lemma filterMap_map_if {α : Type} (l : List Price) (f : Price → Bool) (g : Price → α) :
    (l.map fun p => if f p then some (g p) else none).filterMap id =
      (l.filter f).map g := by
  induction l with
  | nil => rfl
  | cons a t ih =>
    cases hf : f a <;>
      simp [List.filterMap_cons, List.filter_cons, hf, ih]

lemma firstWithDiscount_eq (l : List Price) (f : Price → Bool) :
    firstWithDiscount l (l.map f) = (l.filter f).head? := by
  induction l with
  | nil => rfl
  | cons a t ih =>
    unfold firstWithDiscount at ih ⊢
    cases hf : f a <;>
      simp [List.zip_cons_cons, List.find?_cons, hf, List.filter_cons, ih]

lemma head?_mem {α : Type} {l : List α} {a : α} (h : l.head? = some a) : a ∈ l := by
  cases l with
  | nil => exact absurd h (by simp)
  | cons x t =>
    simp only [List.head?_cons, Option.some.injEq] at h
    exact h ▸ List.mem_cons_self x t

/-!
Lemmas about the campaign selection and the four cascade steps.
-/

lemma selectedCampaign_mem {db : DB} {c : Campaign} (h : selectedCampaign db = some c) :
    c ∈ activeCampaigns db :=
  List.mem_of_find?_eq_some h

lemma selectedCampaign_maximal {db : DB} {c : Campaign} (h : selectedCampaign db = some c) :
    ∀ c2 ∈ activeCampaigns db, c2.priority ≤ c.priority := by
  have hp := List.find?_some h
  intro c2 hc2
  exact of_decide_eq_true (List.all_eq_true.mp hp c2 hc2)

lemma exists_max_priority :
    ∀ l : List Campaign, l ≠ [] → ∃ c ∈ l, ∀ x ∈ l, x.priority ≤ c.priority
  | [], h => absurd rfl h
  | [c], _ => ⟨c, by simp, by simp⟩
  | c :: c2 :: t, _ => by
    obtain ⟨m, hm, hmax⟩ := exists_max_priority (c2 :: t) (by simp)
    by_cases hc : c.priority ≤ m.priority
    · refine ⟨m, List.mem_cons_of_mem c hm, ?_⟩
      intro x hx
      rcases List.mem_cons.mp hx with hx | hx
      · exact hx ▸ hc
      · exact hmax x hx
    · refine ⟨c, List.mem_cons_self c _, ?_⟩
      intro x hx
      rcases List.mem_cons.mp hx with hx | hx
      · exact hx ▸ le_refl _
      · exact le_trans (hmax x hx) (le_of_not_le hc)

lemma selectedCampaign_isSome {db : DB} (h : activeCampaigns db ≠ []) :
    (selectedCampaign db).isSome = true := by
  obtain ⟨c, hc, hmax⟩ := exists_max_priority (activeCampaigns db) h
  unfold selectedCampaign
  rw [List.find?_isSome]
  refine ⟨c, hc, ?_⟩
  rw [List.all_eq_true]
  intro x hx
  exact decide_eq_true (hmax x hx)

lemma campaignStep_ok_inv {db : DB} {p : Price} {r : Resolution}
    (h : campaignStep db p = some (.ok r)) :
    ∃ c, selectedCampaign db = some c ∧ c.applies_to_product db.now p.product = true ∧
      r.discount_amount = c.calculate_discount p.price ∧
      r.discount_source = some .campaign ∧
      r.discount_name = some (.campaignN c.name) ∧
      r.has_discount = true ∧
      r.discount_object = some (.campaignObj c) := by
  unfold campaignStep at h
  split at h
  · rename_i c hc
    split at h
    · rename_i happ
      simp only [Option.some.injEq] at h
      split at h
      · rename_i pct hpd
        have hr := Except.ok.inj h
        exact ⟨c, hc, happ, by rw [← hr], by rw [← hr], by rw [← hr], by rw [← hr],
          by rw [← hr]⟩
      · exact absurd h (by simp)
    · exact absurd h (by simp)
  · exact absurd h (by simp)

lemma categoryStep_ok_inv {db : DB} {p : Price} {r : Resolution}
    (h : categoryStep db p = some (.ok r)) :
    ∃ cd, (db.category_discounts.filter fun cd =>
        decide (cd.category_id = p.product.category_id) && cd.is_active).head? = some cd ∧
      cd.is_currently_active db.now = true ∧
      r.discount_amount = (match cd.discount_type with
        | .Percentaje => p.price * (cd.discount / 100)
        | .Amount => min cd.discount p.price) ∧
      r.discount_source = some .category ∧
      r.discount_name = some (.categoryN p.product.category_title) ∧
      r.has_discount = true ∧
      r.discount_object = some (.categoryObj cd) := by
  unfold categoryStep at h
  split at h
  · rename_i cd hcd
    split at h
    · rename_i hact
      simp only [Option.some.injEq] at h
      split at h
      · rename_i pct hpd
        have hr := Except.ok.inj h
        exact ⟨cd, hcd, hact, by rw [← hr], by rw [← hr], by rw [← hr], by rw [← hr],
          by rw [← hr]⟩
      · exact absurd h (by simp)
    · exact absurd h (by simp)
  · exact absurd h (by simp)

lemma productStep_ok_inv {db : DB} {p : Price} {r : Resolution}
    (h : productStep db p = some (.ok r)) :
    ∃ d, (p.product.product_base_discounts.filter fun x =>
        match x.discount with | some v => decide (0 < v) | none => false).head? = some d ∧
      r.discount_amount = (match d.discount_type with
        | .Percentaje => p.price * (d.discount.getD 0 / 100)
        | .Amount => min (d.discount.getD 0) p.price) ∧
      r.discount_source = some .product ∧
      r.discount_name = some (.productN p.product.title) ∧
      r.has_discount = true ∧
      r.discount_object = some (.productObj d) := by
  unfold productStep at h
  split at h
  · rename_i d hd
    split at h
    · exact absurd h (by simp)
    · split at h
      · exact absurd h (by simp)
      · simp only [Option.some.injEq] at h
        split at h
        · rename_i pct hpd
          have hr := Except.ok.inj h
          exact ⟨d, hd, by rw [← hr], by rw [← hr], by rw [← hr], by rw [← hr], by rw [← hr]⟩
        · exact absurd h (by simp)
  · exact absurd h (by simp)

lemma priceStep_ok_inv {db : DB} {p : Price} {r : Resolution}
    (h : priceStep db p = some (.ok r)) :
    (match p.discount with | some v => decide (v ≠ 0) | none => false) = true ∧
      r.discount_amount = (match p.discount_type with
        | .Percentaje => p.price * (p.discount.getD 0 / 100)
        | .Amount => min (p.discount.getD 0) p.price) ∧
      r.discount_source = some .price ∧
      r.discount_name = some (.priceN p.quantity) ∧
      r.has_discount = true ∧
      r.discount_object = some (.priceObj p) := by
  unfold priceStep at h
  split at h
  · rename_i htr
    simp only [Option.some.injEq] at h
    split at h
    · rename_i pct hpd
      have hr := Except.ok.inj h
      exact ⟨htr, by rw [← hr], by rw [← hr], by rw [← hr], by rw [← hr], by rw [← hr]⟩
    · exact absurd h (by simp)
  · exact absurd h (by simp)

lemma campaignStep_none_of {db : DB} {p : Price}
    (h : ∀ c ∈ db.campaigns, c.applies_to_product db.now p.product = false) :
    campaignStep db p = none := by
  unfold campaignStep
  cases hc : selectedCampaign db with
  | none => rfl
  | some c =>
    have hmem : c ∈ db.campaigns := List.mem_of_mem_filter (selectedCampaign_mem hc)
    simp [h c hmem]

lemma categoryStep_none_of {db : DB} {p : Price}
    (h : ∀ cd ∈ db.category_discounts, cd.category_id = p.product.category_id →
      cd.is_currently_active db.now = false) :
    categoryStep db p = none := by
  unfold categoryStep
  cases hcd : (db.category_discounts.filter fun cd =>
      decide (cd.category_id = p.product.category_id) && cd.is_active).head? with
  | none => rfl
  | some cd =>
    have hmem := List.mem_filter.mp (head?_mem hcd)
    have hcat : cd.category_id = p.product.category_id := by
      have := hmem.2
      simp only [Bool.and_eq_true, decide_eq_true_eq] at this
      exact this.1
    simp [h cd hmem.1 hcat]

lemma productStep_none_of {db : DB} {p : Price}
    (h : ∀ d ∈ p.product.product_base_discounts, 0 < d.discount.getD 0 →
      (∃ s, d.start_date = some s ∧ db.now < s) ∨
      (∃ e, d.expiration_date = some e ∧ e < db.now)) :
    productStep db p = none := by
  unfold productStep
  cases hd : (p.product.product_base_discounts.filter fun x =>
      match x.discount with | some v => decide (0 < v) | none => false).head? with
  | none => rfl
  | some d =>
    have hmem := List.mem_filter.mp (head?_mem hd)
    have hpos : 0 < d.discount.getD 0 := by
      have := hmem.2
      cases hdv : d.discount with
      | none => rw [hdv] at this; simp at this
      | some v =>
        rw [hdv] at this
        simp only [decide_eq_true_eq] at this
        simpa [hdv] using this
    rcases h d hmem.1 hpos with ⟨s, hs, hlt⟩ | ⟨e, he, hlt⟩
    · simp [hs, hlt]
    · cases hg1 : (match d.start_date with | some s => decide (db.now < s) | none => false) with
      | true => simp [hg1]
      | false => simp [hg1, he, hlt]

lemma priceStep_none_of {db : DB} {p : Price}
    (h : p.discount = none ∨ p.discount = some 0) :
    priceStep db p = none := by
  unfold priceStep
  rcases h with h | h <;> rw [h] <;> simp

lemma campaignStep_isSome_iff {db : DB} {p : Price} :
    (campaignStep db p).isSome = true ↔
      ∃ c, selectedCampaign db = some c ∧ c.applies_to_product db.now p.product = true := by
  unfold campaignStep
  cases hc : selectedCampaign db with
  | none => simp
  | some c =>
    by_cases happ : c.applies_to_product db.now p.product = true
    · simp [happ]
    · simp [happ]

lemma categoryStep_isSome_iff {db : DB} {p : Price} :
    (categoryStep db p).isSome = true ↔
      ∃ cd, (db.category_discounts.filter fun cd =>
          decide (cd.category_id = p.product.category_id) && cd.is_active).head? = some cd ∧
        cd.is_currently_active db.now = true := by
  unfold categoryStep
  cases hcd : (db.category_discounts.filter fun cd =>
      decide (cd.category_id = p.product.category_id) && cd.is_active).head? with
  | none => simp
  | some cd =>
    by_cases hact : cd.is_currently_active db.now = true
    · simp [hact]
    · simp [hact]

lemma productStep_isSome_pos {db : DB} {p : Price}
    (h : (productStep db p).isSome = true) :
    ∃ d ∈ p.product.product_base_discounts, 0 < d.discount.getD 0 := by
  unfold productStep at h
  cases hd : (p.product.product_base_discounts.filter fun x =>
      match x.discount with | some v => decide (0 < v) | none => false).head? with
  | none => rw [hd] at h; simp at h
  | some d =>
    have hmem := List.mem_filter.mp (head?_mem hd)
    refine ⟨d, hmem.1, ?_⟩
    have := hmem.2
    cases hdv : d.discount with
    | none => rw [hdv] at this; simp at this
    | some v =>
      rw [hdv] at this
      simp only [decide_eq_true_eq] at this
      simpa [hdv] using this

lemma priceStep_isSome_eq (db : DB) (p : Price) :
    (priceStep db p).isSome =
      (match p.discount with | some v => decide (v ≠ 0) | none => false) := by
  unfold priceStep
  cases hd : (match p.discount with | some v => decide (v ≠ 0) | none => false) with
  | true => simp
  | false => simp

lemma get_best_eq_of_campaign {db : DB} {p : Price} {r : Except DecimalError Resolution}
    (h : campaignStep db p = some r) : get_best_discount_for_price db p = r := by
  unfold get_best_discount_for_price
  rw [h]

lemma get_best_eq_of_category {db : DB} {p : Price} {r : Except DecimalError Resolution}
    (h1 : campaignStep db p = none) (h2 : categoryStep db p = some r) :
    get_best_discount_for_price db p = r := by
  unfold get_best_discount_for_price
  rw [h1, h2]

lemma get_best_eq_of_product {db : DB} {p : Price} {r : Except DecimalError Resolution}
    (h1 : campaignStep db p = none) (h2 : categoryStep db p = none)
    (h3 : productStep db p = some r) :
    get_best_discount_for_price db p = r := by
  unfold get_best_discount_for_price
  rw [h1, h2, h3]

lemma get_best_eq_of_price {db : DB} {p : Price} {r : Except DecimalError Resolution}
    (h1 : campaignStep db p = none) (h2 : categoryStep db p = none)
    (h3 : productStep db p = none) (h4 : priceStep db p = some r) :
    get_best_discount_for_price db p = r := by
  unfold get_best_discount_for_price
  rw [h1, h2, h3, h4]

lemma get_best_eq_baseline {db : DB} {p : Price}
    (h1 : campaignStep db p = none) (h2 : categoryStep db p = none)
    (h3 : productStep db p = none) (h4 : priceStep db p = none) :
    get_best_discount_for_price db p = .ok baselineResolution := by
  unfold get_best_discount_for_price
  rw [h1, h2, h3, h4]

/-- A resolution with a false flag can only be the baseline. -/
lemma flag_false_eq_baseline {db : DB} {p : Price} {r : Resolution}
    (h : get_best_discount_for_price db p = .ok r) (hf : r.has_discount = false) :
    r = baselineResolution := by
  rcases get_best_cases db p with ⟨r2, hs, hg⟩ | ⟨_, r2, hs, hg⟩ | ⟨_, _, r2, hs, hg⟩
    | ⟨_, _, _, r2, hs, hg⟩ | ⟨_, _, _, _, hg⟩
  · have hr2 : r2 = .ok r := hg.symm.trans h
    obtain ⟨c, -, -, -, -, -, htrue, -⟩ := campaignStep_ok_inv (hr2 ▸ hs)
    exact absurd (hf ▸ htrue) (by simp)
  · have hr2 : r2 = .ok r := hg.symm.trans h
    obtain ⟨cd, -, -, -, -, -, htrue, -⟩ := categoryStep_ok_inv (hr2 ▸ hs)
    exact absurd (hf ▸ htrue) (by simp)
  · have hr2 : r2 = .ok r := hg.symm.trans h
    obtain ⟨d, -, -, -, -, htrue, -⟩ := productStep_ok_inv (hr2 ▸ hs)
    exact absurd (hf ▸ htrue) (by simp)
  · have hr2 : r2 = .ok r := hg.symm.trans h
    obtain ⟨-, -, -, -, htrue, -⟩ := priceStep_ok_inv (hr2 ▸ hs)
    exact absurd (hf ▸ htrue) (by simp)
  · exact Except.ok.inj (h.symm.trans hg)

lemma campaignStep_fired_zero {db : DB} {p : Price} {r : Except DecimalError Resolution}
    (h : campaignStep db p = some r) (h0 : p.price = 0) : r = .error .divisionByZero := by
  unfold campaignStep at h
  split at h
  · split at h
    · simp only [Option.some.injEq] at h
      rw [← h]
      split
      · rename_i pct hpd
        unfold percentageDisplay at hpd
        rw [if_pos h0] at hpd
        exact absurd hpd (by simp)
      · rename_i e hpd
        cases e
        rfl
    · exact absurd h (by simp)
  · exact absurd h (by simp)

lemma categoryStep_fired_zero {db : DB} {p : Price} {r : Except DecimalError Resolution}
    (h : categoryStep db p = some r) (h0 : p.price = 0) : r = .error .divisionByZero := by
  unfold categoryStep at h
  split at h
  · split at h
    · simp only [Option.some.injEq] at h
      rw [← h]
      split
      · rename_i pct hpd
        unfold percentageDisplay at hpd
        rw [if_pos h0] at hpd
        exact absurd hpd (by simp)
      · rename_i e hpd
        cases e
        rfl
    · exact absurd h (by simp)
  · exact absurd h (by simp)

lemma productStep_fired_zero {db : DB} {p : Price} {r : Except DecimalError Resolution}
    (h : productStep db p = some r) (h0 : p.price = 0) : r = .error .divisionByZero := by
  unfold productStep at h
  split at h
  · split at h
    · exact absurd h (by simp)
    · split at h
      · exact absurd h (by simp)
      · simp only [Option.some.injEq] at h
        rw [← h]
        split
        · rename_i pct hpd
          unfold percentageDisplay at hpd
          rw [if_pos h0] at hpd
          exact absurd hpd (by simp)
        · rename_i e hpd
          cases e
          rfl
  · exact absurd h (by simp)

lemma priceStep_fired_zero {db : DB} {p : Price} {r : Except DecimalError Resolution}
    (h : priceStep db p = some r) (h0 : p.price = 0) : r = .error .divisionByZero := by
  unfold priceStep at h
  split at h
  · simp only [Option.some.injEq] at h
    rw [← h]
    split
    · rename_i pct hpd
      unfold percentageDisplay at hpd
      rw [if_pos h0] at hpd
      exact absurd hpd (by simp)
    · rename_i e hpd
      cases e
      rfl
  · exact absurd h (by simp)

/-!
Claim theorems.
-/

/-- C1 (counterexample): the resolver does not return the earliest level
at which an applicable active rule exists.  Here the lower-priority
global campaign `campLo1` is active and applies to the product, so the
campaign level has an applicable active rule, yet the resolver answers
from the category level because the single selected (highest-priority)
active campaign `campHi1` does not apply to the product. -/
theorem campaign_shadowing_breaks_priority_claim :
    (campLo1 ∈ db1.campaigns ∧ campLo1.is_currently_active db1.now = true ∧
      campLo1.applies_to_product db1.now tier1.product = true) ∧
    get_best_discount_for_price db1 tier1 =
      .ok ⟨10, 10, some .category, some (.categoryN "C1"), true, some (.categoryObj cd1)⟩ ∧
    some DiscountSource.category ≠ some DiscountSource.campaign := by
  refine ⟨⟨by simp [db1], rfl, rfl⟩, ?_, by simp⟩
  have hnone : campaignStep db1 tier1 = none := rfl
  have hcat : categoryStep db1 tier1 =
      some (.ok ⟨10, 10, some .category, some (.categoryN "C1"), true,
        some (.categoryObj cd1)⟩) := by
    simp [categoryStep, db1, tier1, prod1, cd1, CategoryDiscount.is_currently_active,
      percentageDisplay, roundHalfEven]
    norm_num
  exact get_best_eq_of_category hnone hcat

/-- C1 (amended): the resolver returns the result of the numerically
earliest cascade level whose check fires, in the fixed order campaign,
category, product, tier-inline price, falling back to the baseline; the
campaign check fires only when the single highest-priority active
campaign applies to the product, and each firing level tags its source
accordingly. -/
theorem cascade_returns_first_firing_level (db : DB) (p : Price) :
    (∀ r, campaignStep db p = some r → get_best_discount_for_price db p = r)
    ∧ (campaignStep db p = none → ∀ r, categoryStep db p = some r →
        get_best_discount_for_price db p = r)
    ∧ (campaignStep db p = none → categoryStep db p = none →
        ∀ r, productStep db p = some r → get_best_discount_for_price db p = r)
    ∧ (campaignStep db p = none → categoryStep db p = none → productStep db p = none →
        ∀ r, priceStep db p = some r → get_best_discount_for_price db p = r)
    ∧ (campaignStep db p = none → categoryStep db p = none → productStep db p = none →
        priceStep db p = none → get_best_discount_for_price db p = .ok baselineResolution)
    ∧ (∀ res, campaignStep db p = some (.ok res) → res.discount_source = some .campaign)
    ∧ (∀ res, categoryStep db p = some (.ok res) → res.discount_source = some .category)
    ∧ (∀ res, productStep db p = some (.ok res) → res.discount_source = some .product)
    ∧ (∀ res, priceStep db p = some (.ok res) → res.discount_source = some .price) := by
  refine ⟨fun r h => get_best_eq_of_campaign h,
    fun h1 r h2 => get_best_eq_of_category h1 h2,
    fun h1 h2 r h3 => get_best_eq_of_product h1 h2 h3,
    fun h1 h2 h3 r h4 => get_best_eq_of_price h1 h2 h3 h4,
    fun h1 h2 h3 h4 => get_best_eq_baseline h1 h2 h3 h4,
    fun res h => ?s1, fun res h => ?s2, fun res h => ?s3, fun res h => ?s4⟩
  case s1 =>
    obtain ⟨c, -, -, -, hs, -⟩ := campaignStep_ok_inv h
    exact hs
  case s2 =>
    obtain ⟨cd, -, -, -, hs, -⟩ := categoryStep_ok_inv h
    exact hs
  case s3 =>
    obtain ⟨d, -, -, hs, -⟩ := productStep_ok_inv h
    exact hs
  case s4 =>
    obtain ⟨-, -, hs, -⟩ := priceStep_ok_inv h
    exact hs

/-- C1 (witness): at `db1`, `tier1` the campaign check does not fire and
the category check does, so the resolver returns the category result. -/
theorem cascade_returns_first_firing_level_witness :
    get_best_discount_for_price db1 tier1 =
      .ok ⟨10, 10, some .category, some (.categoryN "C1"), true, some (.categoryObj cd1)⟩ := by
  have hcat : categoryStep db1 tier1 =
      some (.ok ⟨10, 10, some .category, some (.categoryN "C1"), true,
        some (.categoryObj cd1)⟩) := by
    simp [categoryStep, db1, tier1, prod1, cd1, CategoryDiscount.is_currently_active,
      percentageDisplay, roundHalfEven]
    norm_num
  exact (cascade_returns_first_firing_level db1 tier1).2.1 rfl _ hcat

lemma perc_le {price v : ℚ} (h0 : 0 ≤ price) (hv : v ≤ 100) : price * (v / 100) ≤ price := by
  have h1 : v / 100 ≤ 1 := (div_le_one (by norm_num : (0 : ℚ) < 100)).mpr hv
  calc price * (v / 100) ≤ price * 1 := by
        refine mul_le_mul_of_nonneg_left h1 h0
    _ = price := mul_one price

/-- C2 (counterexample): a percentage-kind campaign of 200 percent is not
clamped, so the resolved amount exceeds the tier price and
`price_new` is negative. -/
theorem unclamped_percentage_makes_price_new_negative :
    price_new db2 tier2 = .ok (-100) ∧ ¬(0 : ℚ) ≤ -100 := by
  constructor
  · simp [price_new, db2, tier2, prod2, camp2, get_best_discount_for_price, campaignStep,
      selectedCampaign, activeCampaigns, Campaign.applies_to_product,
      Campaign.is_currently_active, Campaign.calculate_discount, percentageDisplay,
      roundHalfEven]
    norm_num
  · norm_num

/-- C2 (amended): fixed-amount discounts are clamped to the tier price at
every cascade level, and on trusted data (every percentage-kind rule
value at most 100) the resolved amount never exceeds a non-negative tier
price, so `price_new` is non-negative; with an unbounded percentage the
amount can exceed the price (see the counterexample). -/
theorem discount_amount_le_price_of_bounded_percentages (db : DB) (p : Price)
    (h0 : 0 ≤ p.price) :
    (percentagesBounded db p → ∀ r, get_best_discount_for_price db p = .ok r →
      r.discount_amount ≤ p.price ∧ 0 ≤ p.price - r.discount_amount)
    ∧ (∀ r o, get_best_discount_for_price db p = .ok r → r.discount_object = some o →
        DiscountObject.kind o = .Amount → r.discount_amount ≤ p.price) := by
  have key : ∀ r : Resolution, get_best_discount_for_price db p = .ok r →
      (percentagesBounded db p → r.discount_amount ≤ p.price) ∧
      (∀ o, r.discount_object = some o → DiscountObject.kind o = .Amount →
        r.discount_amount ≤ p.price) := by
    intro r h
    rcases get_best_cases db p with ⟨r2, hs, hg⟩ | ⟨-, r2, hs, hg⟩ | ⟨-, -, r2, hs, hg⟩
      | ⟨-, -, -, r2, hs, hg⟩ | ⟨-, -, -, -, hg⟩
    · have hr2 : r2 = .ok r := hg.symm.trans h
      obtain ⟨c, hsel, -, hamt, -, -, -, hobj⟩ := campaignStep_ok_inv (hr2 ▸ hs)
      have hcmem : c ∈ db.campaigns := List.mem_of_mem_filter (selectedCampaign_mem hsel)
      constructor
      · intro hb
        rw [hamt]
        unfold Campaign.calculate_discount
        cases hk : c.discount_type with
        | Percentaje => exact perc_le h0 (hb.1 c hcmem hk)
        | Amount => exact min_le_right c.discount p.price
      · intro o ho hk
        rw [hamt]
        unfold Campaign.calculate_discount
        have : o = .campaignObj c := Option.some.inj (ho.symm.trans hobj)
        rw [this] at hk
        simp only [DiscountObject.kind] at hk
        rw [hk]
        exact min_le_right c.discount p.price
    · have hr2 : r2 = .ok r := hg.symm.trans h
      obtain ⟨cd, hsel, -, hamt, -, -, -, hobj⟩ := categoryStep_ok_inv (hr2 ▸ hs)
      have hmem : cd ∈ db.category_discounts :=
        List.mem_of_mem_filter (head?_mem hsel)
      constructor
      · intro hb
        rw [hamt]
        cases hk : cd.discount_type with
        | Percentaje => exact perc_le h0 (hb.2.1 cd hmem hk)
        | Amount => exact min_le_right cd.discount p.price
      · intro o ho hk
        rw [hamt]
        have : o = .categoryObj cd := Option.some.inj (ho.symm.trans hobj)
        rw [this] at hk
        simp only [DiscountObject.kind] at hk
        rw [hk]
        exact min_le_right cd.discount p.price
    · have hr2 : r2 = .ok r := hg.symm.trans h
      obtain ⟨d, hsel, hamt, -, -, -, hobj⟩ := productStep_ok_inv (hr2 ▸ hs)
      have hmem : d ∈ p.product.product_base_discounts :=
        List.mem_of_mem_filter (head?_mem hsel)
      constructor
      · intro hb
        rw [hamt]
        cases hk : d.discount_type with
        | Percentaje => exact perc_le h0 (hb.2.2.1 d hmem hk)
        | Amount => exact min_le_right (d.discount.getD 0) p.price
      · intro o ho hk
        rw [hamt]
        have : o = .productObj d := Option.some.inj (ho.symm.trans hobj)
        rw [this] at hk
        simp only [DiscountObject.kind] at hk
        rw [hk]
        exact min_le_right (d.discount.getD 0) p.price
    · have hr2 : r2 = .ok r := hg.symm.trans h
      obtain ⟨-, hamt, -, -, -, hobj⟩ := priceStep_ok_inv (hr2 ▸ hs)
      constructor
      · intro hb
        rw [hamt]
        cases hk : p.discount_type with
        | Percentaje => exact perc_le h0 (hb.2.2.2 hk)
        | Amount => exact min_le_right (p.discount.getD 0) p.price
      · intro o ho hk
        rw [hamt]
        have : o = .priceObj p := Option.some.inj (ho.symm.trans hobj)
        rw [this] at hk
        simp only [DiscountObject.kind] at hk
        rw [hk]
        exact min_le_right (p.discount.getD 0) p.price
    · have hr : r = baselineResolution := Except.ok.inj (h.symm.trans hg)
      constructor
      · intro _hb
        rw [hr]
        simpa [baselineResolution] using h0
      · intro o ho _hk
        rw [hr] at ho
        exact absurd ho (by simp [baselineResolution])
  constructor
  · intro hb r h
    have ha := (key r h).1 hb
    exact ⟨ha, by linarith⟩
  · intro r o h ho hk
    exact (key r h).2 o ho hk

/-- C2 (witness): with a bounded 20 percent campaign on a 100-priced
tier the resolved amount 20 stays below the price and the new price is
non-negative. -/
theorem discount_amount_le_price_witness :
    (0 : ℚ) ≤ tier2w.price ∧ percentagesBounded db2w tier2w ∧
    ((20 : ℚ) ≤ tier2w.price ∧ (0 : ℚ) ≤ tier2w.price - 20) := by
  have h0 : (0 : ℚ) ≤ tier2w.price := by norm_num [tier2w]
  have hb : percentagesBounded db2w tier2w := by
    refine ⟨?a, ?b, ?c, ?d⟩
    · intro c hc hk
      have hc2 : c = camp2w := by simpa [db2w] using hc
      rw [hc2]
      norm_num [camp2w]
    · intro cd hcd
      exact absurd hcd (by simp [db2w])
    · intro d hd
      exact absurd hd (by simp [tier2w, prod2w])
    · intro hk
      exact absurd hk (by simp [tier2w])
  have hres : get_best_discount_for_price db2w tier2w =
      .ok ⟨20, 20, some .campaign, some (.campaignN "W20"), true, some (.campaignObj camp2w)⟩ := by
    simp [get_best_discount_for_price, campaignStep, selectedCampaign, activeCampaigns,
      db2w, tier2w, prod2w, camp2w, Campaign.applies_to_product, Campaign.is_currently_active,
      Campaign.calculate_discount, percentageDisplay, roundHalfEven]
    norm_num
  have := (discount_amount_le_price_of_bounded_percentages db2w tier2w h0).1 hb _ hres
  exact ⟨h0, hb, this⟩

/-- C3 (counterexample): at a zero-priced tier with a truthy inline
discount the resolver raises the decimal division error instead of
returning a zero percentage. -/
theorem zero_price_with_inline_discount_raises :
    tier3.price = 0 ∧ get_best_discount_for_price db3 tier3 = .error .divisionByZero := by
  exact ⟨rfl, rfl⟩

/-- C3 (amended): at a zero-priced tier the resolver returns the baseline
(whose displayed percentage is 0) exactly when no cascade level fires;
when any level fires, the percentage division by the zero price raises. -/
theorem zero_price_resolution_baseline_or_error (db : DB) (p : Price) (h : p.price = 0) :
    (get_best_discount_for_price db p = .ok baselineResolution ∨
      get_best_discount_for_price db p = .error .divisionByZero)
    ∧ (∀ r, get_best_discount_for_price db p = .ok r →
        r = baselineResolution ∧ r.discount_percentage = 0) := by
  have hfired : ∀ r : Except DecimalError Resolution,
      (campaignStep db p = some r ∨ categoryStep db p = some r ∨
        productStep db p = some r ∨ priceStep db p = some r) →
      r = .error .divisionByZero := by
    intro r hr
    rcases hr with hr | hr | hr | hr
    · exact campaignStep_fired_zero hr h
    · exact categoryStep_fired_zero hr h
    · exact productStep_fired_zero hr h
    · exact priceStep_fired_zero hr h
  constructor
  · rcases get_best_cases db p with ⟨r, hs, hg⟩ | ⟨-, r, hs, hg⟩ | ⟨-, -, r, hs, hg⟩
      | ⟨-, -, -, r, hs, hg⟩ | ⟨-, -, -, -, hg⟩
    · exact Or.inr (by rw [hg, hfired r (Or.inl hs)])
    · exact Or.inr (by rw [hg, hfired r (Or.inr (Or.inl hs))])
    · exact Or.inr (by rw [hg, hfired r (Or.inr (Or.inr (Or.inl hs)))])
    · exact Or.inr (by rw [hg, hfired r (Or.inr (Or.inr (Or.inr hs)))])
    · exact Or.inl hg
  · intro r hok
    rcases get_best_cases db p with ⟨r2, hs, hg⟩ | ⟨-, r2, hs, hg⟩ | ⟨-, -, r2, hs, hg⟩
      | ⟨-, -, -, r2, hs, hg⟩ | ⟨-, -, -, -, hg⟩
    · have := hfired r2 (Or.inl hs)
      rw [this] at hg
      exact absurd (hok.symm.trans hg) (by simp)
    · have := hfired r2 (Or.inr (Or.inl hs))
      rw [this] at hg
      exact absurd (hok.symm.trans hg) (by simp)
    · have := hfired r2 (Or.inr (Or.inr (Or.inl hs)))
      rw [this] at hg
      exact absurd (hok.symm.trans hg) (by simp)
    · have := hfired r2 (Or.inr (Or.inr (Or.inr hs)))
      rw [this] at hg
      exact absurd (hok.symm.trans hg) (by simp)
    · have hr : r = baselineResolution := Except.ok.inj (hok.symm.trans hg)
      exact ⟨hr, by rw [hr]; rfl⟩

/-- C3 (witness): a zero-priced tier with no rules resolves to the
baseline with percentage 0. -/
theorem zero_price_resolution_witness :
    tier3w.price = 0 ∧
    get_best_discount_for_price db3w tier3w = .ok baselineResolution ∧
    baselineResolution.discount_percentage = 0 := by
  have h := (zero_price_resolution_baseline_or_error db3w tier3w rfl).2
      baselineResolution rfl
  exact ⟨rfl, rfl, h.2⟩

/-- C4 (counterexample): two active global campaigns share priority 5;
the stored-second campaign `campB4` has the later start, yet the
resolver answers with the stored-first campaign `campA4` — the
`order_by('-priority')` call replaces the Meta ordering, so ties are not
broken by latest start. -/
theorem priority_tie_resolved_by_stored_order_not_latest_start :
    activeCampaigns db4 = [campA4, campB4] ∧
    campA4.priority = campB4.priority ∧
    campA4.start_date < campB4.start_date ∧
    get_best_discount_for_price db4 tier4 =
      .ok ⟨10, 10, some .campaign, some (.campaignN "A"), true, some (.campaignObj campA4)⟩ ∧
    campA4.name ≠ campB4.name := by
  refine ⟨rfl, rfl, by norm_num [campA4, campB4], ?_, by decide⟩
  have hstep : campaignStep db4 tier4 =
      some (.ok ⟨10, 10, some .campaign, some (.campaignN "A"), true,
        some (.campaignObj campA4)⟩) := by
    simp [campaignStep, selectedCampaign, activeCampaigns, db4, tier4, prod4, campA4, campB4,
      Campaign.applies_to_product, Campaign.is_currently_active, Campaign.calculate_discount,
      percentageDisplay, roundHalfEven]
    norm_num
  exact get_best_eq_of_campaign hstep

/-- C4 (amended): the campaign step selects, among campaigns with
`is_active` and `start ≤ now ≤ expiration`, one of maximal priority —
ties resolved to the first in stored order, not by latest start; the
selected campaign applies iff its scope is global, or category with the
product's category in its set, or products with the product in its set;
when it applies the resolver returns source campaign with that
campaign's name, and the discount object's expiry attribute is the
campaign's expiration. -/
theorem campaign_selection_scope_and_fields (db : DB) (p : Price) :
    (∀ c, selectedCampaign db = some c → c ∈ activeCampaigns db ∧
      ∀ c2 ∈ activeCampaigns db, c2.priority ≤ c.priority)
    ∧ (activeCampaigns db ≠ [] → (selectedCampaign db).isSome = true)
    ∧ (∀ c ∈ activeCampaigns db,
        c ∈ db.campaigns ∧ c.is_active = true ∧ c.start_date ≤ db.now ∧
          db.now ≤ c.expiration_date)
    ∧ (∀ c, selectedCampaign db = some c →
        (c.applies_to_product db.now p.product = true ↔
          (c.campaign_type = .global ∨
            (c.campaign_type = .category ∧ p.product.category_id ∈ c.categories) ∨
            (c.campaign_type = .products ∧ p.product.id ∈ c.products))))
    ∧ (∀ c, selectedCampaign db = some c → c.applies_to_product db.now p.product = true →
        get_best_discount_for_price db p =
          (match percentageDisplay (c.calculate_discount p.price) p.price with
            | .ok pct => .ok
                { discount_amount := c.calculate_discount p.price
                  discount_percentage := pct
                  discount_source := some .campaign
                  discount_name := some (.campaignN c.name)
                  has_discount := true
                  discount_object := some (.campaignObj c) }
            | .error e => .error e))
    ∧ (∀ c : Campaign, expirationAttr (.campaignObj c) = some c.expiration_date) := by
  refine ⟨fun c hc => ⟨selectedCampaign_mem hc, selectedCampaign_maximal hc⟩,
    selectedCampaign_isSome, ?active, ?applies, ?result, fun c => rfl⟩
  case active =>
    intro c hc
    have hm := List.mem_filter.mp hc
    refine ⟨hm.1, ?_⟩
    have h2 := hm.2
    simp only [Bool.and_eq_true, decide_eq_true_eq] at h2
    exact ⟨h2.1.1, h2.1.2, h2.2⟩
  case applies =>
    intro c hc
    have hact : c.is_currently_active db.now = true :=
      (List.mem_filter.mp (selectedCampaign_mem hc)).2
    unfold Campaign.applies_to_product
    simp only [hact]
    cases htyp : c.campaign_type <;> simp [htyp, List.elem_iff]
  case result =>
    intro c hc happ
    have hstep : campaignStep db p =
        some (match percentageDisplay (c.calculate_discount p.price) p.price with
          | .ok pct => .ok
              { discount_amount := c.calculate_discount p.price
                discount_percentage := pct
                discount_source := some .campaign
                discount_name := some (.campaignN c.name)
                has_discount := true
                discount_object := some (.campaignObj c) }
          | .error e => .error e) := by
      unfold campaignStep
      simp only [hc]
      rw [if_pos happ]
    exact get_best_eq_of_campaign hstep

/-- C4 (witness): a single active global campaign is selected, applies,
and yields the campaign-sourced resolution with its name and expiry. -/
theorem campaign_selection_scope_and_fields_witness :
    selectedCampaign db4w = some camp4w ∧
    camp4w.applies_to_product db4w.now tier4w.product = true ∧
    get_best_discount_for_price db4w tier4w =
      .ok ⟨10, 10, some .campaign, some (.campaignN "W4"), true, some (.campaignObj camp4w)⟩ ∧
    expirationAttr (.campaignObj camp4w) = some 100 := by
  have h := (campaign_selection_scope_and_fields db4w tier4w).2.2.2.2.1 camp4w rfl rfl
  refine ⟨rfl, rfl, ?_, rfl⟩
  rw [h]
  simp [camp4w, tier4w, prod4w, Campaign.calculate_discount, percentageDisplay, roundHalfEven]
  norm_num

/-- C5 (counterexample): an applicable active campaign whose discount
value is zero still wins the cascade with amount 0 and the discount flag
set, even though an active category discount was available at the next
level — non-positive values are not treated as absent at the campaign
level. -/
theorem zero_discount_campaign_wins_cascade :
    campZ5.discount = 0 ∧
    cd5.category_id = tier5.product.category_id ∧
    cd5.is_currently_active db5.now = true ∧
    get_best_discount_for_price db5 tier5 =
      .ok ⟨0, 0, some .campaign, some (.campaignN "Zero"), true, some (.campaignObj campZ5)⟩ := by
  refine ⟨rfl, rfl, rfl, ?_⟩
  have hstep : campaignStep db5 tier5 =
      some (.ok ⟨0, 0, some .campaign, some (.campaignN "Zero"), true,
        some (.campaignObj campZ5)⟩) := by
    simp [campaignStep, selectedCampaign, activeCampaigns, db5, tier5, prod5, campZ5,
      Campaign.applies_to_product, Campaign.is_currently_active, Campaign.calculate_discount,
      percentageDisplay, roundHalfEven]
  exact get_best_eq_of_campaign hstep

/-- C5 (amended): only the product level filters out non-positive
values (its queryset keeps rows with `discount > 0`); the tier-inline
check is Python truthiness, so zero or absent is skipped but a negative
value fires; the campaign and category checks depend only on activity
and scope, never on the sign of the discount value. -/
theorem positivity_filter_only_at_product_level (db : DB) (p : Price) :
    ((priceStep db p).isSome =
      (match p.discount with | some v => decide (v ≠ 0) | none => false))
    ∧ ((productStep db p).isSome = true →
        ∃ d ∈ p.product.product_base_discounts, 0 < d.discount.getD 0)
    ∧ ((campaignStep db p).isSome = true ↔
        ∃ c, selectedCampaign db = some c ∧ c.applies_to_product db.now p.product = true)
    ∧ ((categoryStep db p).isSome = true ↔
        ∃ cd, (db.category_discounts.filter fun cd =>
            decide (cd.category_id = p.product.category_id) && cd.is_active).head? = some cd ∧
          cd.is_currently_active db.now = true) :=
  ⟨priceStep_isSome_eq db p, productStep_isSome_pos, campaignStep_isSome_iff,
    categoryStep_isSome_iff⟩

/-- C5 (witness): a negative inline discount makes the tier-inline check
fire, and a firing product step implies a stored positive product
discount. -/
theorem positivity_filter_witness :
    tier5w.discount = some (-3) ∧
    (priceStep db5w tier5w).isSome = true ∧
    (∃ d ∈ tier5w.product.product_base_discounts, 0 < d.discount.getD 0) := by
  have h := positivity_filter_only_at_product_level db5w tier5w
  refine ⟨rfl, ?_, ?_⟩
  · rw [h.1]
    simp [tier5w]
  · exact h.2.1 (by rfl)

/-- C6 (confirmed): with no applicable active campaign, no active
category discount for the product's category, no applicable (positive,
in-window) product discount and a zero or absent inline discount, the
resolver returns exactly the baseline dictionary — amount 0, source
none, name none, flag false, no winning object (hence a null expiry) —
and the surfaced percentage accessor is null. -/
theorem no_discount_baseline_resolution (db : DB) (p : Price)
    (h1 : ∀ c ∈ db.campaigns, c.applies_to_product db.now p.product = false)
    (h2 : ∀ cd ∈ db.category_discounts, cd.category_id = p.product.category_id →
      cd.is_currently_active db.now = false)
    (h3 : ∀ d ∈ p.product.product_base_discounts, 0 < d.discount.getD 0 →
      (∃ s, d.start_date = some s ∧ db.now < s) ∨
      (∃ e, d.expiration_date = some e ∧ e < db.now))
    (h4 : p.discount = none ∨ p.discount = some 0) :
    get_best_discount_for_price db p = .ok baselineResolution
    ∧ baselineResolution.discount_amount = 0
    ∧ baselineResolution.discount_source = none
    ∧ baselineResolution.discount_name = none
    ∧ baselineResolution.has_discount = false
    ∧ baselineResolution.discount_object = none
    ∧ percentaje_discount db p = .ok none := by
  have hg := get_best_eq_baseline (campaignStep_none_of h1) (categoryStep_none_of h2)
    (productStep_none_of h3) (priceStep_none_of h4)
  refine ⟨hg, rfl, rfl, rfl, rfl, rfl, ?_⟩
  unfold percentaje_discount
  rw [hg]
  rfl

/-- C6 (witness): an empty rule state and a discount-free tier resolve to
the baseline with a null surfaced percentage. -/
theorem no_discount_baseline_witness :
    get_best_discount_for_price db6 tier6 = .ok baselineResolution ∧
    percentaje_discount db6 tier6 = .ok none := by
  have h := no_discount_baseline_resolution db6 tier6 (by simp [db6]) (by simp [db6])
    (by simp [tier6, prod6]) (Or.inl rfl)
  exact ⟨h.1, h.2.2.2.2.2.2⟩

/-- C7 (counterexample): a zero-valued applicable campaign fires, so the
resolved amount is 0 while the `has_discount` flag is true; `price_old`
then returns the raw price and `has_discount` returns true although the
amount is not positive, refuting `priceOld = price iff amount > 0` and
`hasDiscount iff amount > 0`. -/
theorem has_discount_flag_true_with_zero_amount :
    get_best_discount_for_price db7 tier7 =
      .ok ⟨0, 0, some .campaign, some (.campaignN "Zero7"), true, some (.campaignObj campZ7)⟩ ∧
    has_discount db7 tier7 = .ok true ∧
    price_old db7 tier7 = .ok (some 100) ∧
    price_new db7 tier7 = .ok 100 := by
  have hres : get_best_discount_for_price db7 tier7 =
      .ok ⟨0, 0, some .campaign, some (.campaignN "Zero7"), true, some (.campaignObj campZ7)⟩ := by
    have hstep : campaignStep db7 tier7 =
        some (.ok ⟨0, 0, some .campaign, some (.campaignN "Zero7"), true,
          some (.campaignObj campZ7)⟩) := by
      simp [campaignStep, selectedCampaign, activeCampaigns, db7, tier7, prod7, campZ7,
        Campaign.applies_to_product, Campaign.is_currently_active, Campaign.calculate_discount,
        percentageDisplay, roundHalfEven]
    exact get_best_eq_of_campaign hstep
  refine ⟨hres, ?_, ?_, ?_⟩
  · unfold has_discount
    rw [hres]
  · unfold price_old
    rw [hres]
    rfl
  · unfold price_new
    rw [hres]
    norm_num [tier7]

/-- C7 (amended): `price_new` is the raw price minus the resolved amount;
`price_old` is the raw price exactly when the resolution's
`has_discount` flag is set (else null) and `has_discount` returns that
flag; the flag is false only for the baseline resolution, i.e. it
records that some cascade level fired, not that the amount is
positive. -/
theorem derived_price_operations_follow_flag (db : DB) (p : Price) :
    ∀ i, get_best_discount_for_price db p = .ok i →
      price_new db p = .ok (p.price - i.discount_amount)
      ∧ price_old db p = .ok (if i.has_discount then some p.price else none)
      ∧ has_discount db p = .ok i.has_discount
      ∧ (i.has_discount = false → i = baselineResolution) := by
  intro i h
  refine ⟨?_, ?_, ?_, fun hf => flag_false_eq_baseline h hf⟩
  · unfold price_new
    rw [h]
  · unfold price_old
    rw [h]
  · unfold has_discount
    rw [h]

/-- C7 (witness): on a rule-free state the accessors follow the baseline
resolution. -/
theorem derived_price_operations_witness :
    price_new db7w tier7w = .ok 100 ∧ price_old db7w tier7w = .ok none ∧
    has_discount db7w tier7w = .ok false := by
  have h := derived_price_operations_follow_flag db7w tier7w baselineResolution rfl
  refine ⟨?_, ?_, ?_⟩
  · rw [h.1]
    norm_num [tier7w, baselineResolution]
  · rw [h.2.1]
    rfl
  · rw [h.2.2.1]
    rfl

lemma getLast?_mem {α : Type} {l : List α} {a : α} (h : l.getLast? = some a) : a ∈ l := by
  obtain ⟨hne, heq⟩ := List.mem_getLast?_eq_getLast (show a ∈ l.getLast? by
    rw [Option.mem_def]; exact h)
  rw [heq]
  exact List.getLast_mem hne

lemma getLast?_isSome_of_ne_nil {α : Type} {l : List α} (h : l ≠ []) :
    ∃ a, l.getLast? = some a :=
  ⟨l.getLast h, List.getLast?_eq_getLast_of_ne_nil h⟩

/-- Fields of the detail summary that do not depend on the discount
branch. -/
lemma pureSummary_base_fields (db : DB) (prices : List Price) :
    (pureSummary db prices).min = minQ (prices.map fun p => p.price)
    ∧ (pureSummary db prices).max = maxQ (prices.map fun p => p.price)
    ∧ (pureSummary db prices).min_cantity =
        (extremeFields prices (minQ (prices.map fun p => p.price))).1
    ∧ (pureSummary db prices).min_unit =
        (extremeFields prices (minQ (prices.map fun p => p.price))).2.1
    ∧ (pureSummary db prices).min_unit_smart =
        (extremeFields prices (minQ (prices.map fun p => p.price))).2.2
    ∧ (pureSummary db prices).max_cantity =
        (extremeFields prices (maxQ (prices.map fun p => p.price))).1
    ∧ (pureSummary db prices).max_unit =
        (extremeFields prices (maxQ (prices.map fun p => p.price))).2.1
    ∧ (pureSummary db prices).max_unit_smart =
        (extremeFields prices (maxQ (prices.map fun p => p.price))).2.2
    ∧ (pureSummary db prices).has_discount = ((prices.map (flagOk db)).any fun b => b) := by
  simp only [pureSummary]
  split
  · split <;> exact ⟨rfl, rfl, rfl, rfl, rfl, rfl, rfl, rfl, rfl⟩
  · exact ⟨rfl, rfl, rfl, rfl, rfl, rfl, rfl, rfl, rfl⟩

/-- Normal form of the detail summary when some tier has a discount. -/
lemma pureSummary_discount_eq (db : DB) (prices : List Price) (fp : Price)
    (hD : ((prices.map (flagOk db)).any fun b => b) = true)
    (hfp : (prices.filter (flagOk db)).head? = some fp) :
    pureSummary db prices =
      { min := minQ (prices.map fun p => p.price)
        max := maxQ (prices.map fun p => p.price)
        min_cantity := (extremeFields prices (minQ (prices.map fun p => p.price))).1
        min_unit := (extremeFields prices (minQ (prices.map fun p => p.price))).2.1
        min_unit_smart := (extremeFields prices (minQ (prices.map fun p => p.price))).2.2
        max_cantity := (extremeFields prices (maxQ (prices.map fun p => p.price))).1
        max_unit := (extremeFields prices (maxQ (prices.map fun p => p.price))).2.1
        max_unit_smart := (extremeFields prices (maxQ (prices.map fun p => p.price))).2.2
        min_discounted := minQ (prices.map (price_newOk db))
        max_discounted := maxQ (prices.map (price_newOk db))
        has_discount := true
        max_discount_percentage :=
          if ((prices.map (pctOk db)).filterMap id).isEmpty then none
          else some (maxZ ((prices.map (pctOk db)).filterMap id))
        min_discount_percentage :=
          if ((prices.map (pctOk db)).filterMap id).isEmpty then none
          else some (minZ ((prices.map (pctOk db)).filterMap id))
        max_savings :=
          if ((prices.map (savingsOk db)).filterMap id).isEmpty then none
          else some (maxQ ((prices.map (savingsOk db)).filterMap id))
        min_savings :=
          if ((prices.map (savingsOk db)).filterMap id).isEmpty then none
          else some (minQ ((prices.map (savingsOk db)).filterMap id))
        campaign_name := (resolveOk db fp).discount_name
        discount_expires_at := (resolveOk db fp).discount_object.bind expirationAttr } := by
  simp only [pureSummary, firstWithDiscount_eq, hfp, hD, eq_self_iff_true, if_true]

/-- Normal form of the list summary when some tier has a discount. -/
lemma pureListSummary_discount_eq (db : DB) (prices : List Price) (fp : Price)
    (hD : ((prices.map (flagOk db)).any fun b => b) = true)
    (hfp : (prices.filter (flagOk db)).head? = some fp) :
    pureListSummary db prices =
      { min := minQ (prices.map fun p => p.price)
        max := maxQ (prices.map fun p => p.price)
        min_cantity := (extremeFields prices (minQ (prices.map fun p => p.price))).1
        min_unit := (extremeFields prices (minQ (prices.map fun p => p.price))).2.1
        min_unit_smart := (extremeFields prices (minQ (prices.map fun p => p.price))).2.2
        max_cantity := (extremeFields prices (maxQ (prices.map fun p => p.price))).1
        max_unit := (extremeFields prices (maxQ (prices.map fun p => p.price))).2.1
        max_unit_smart := (extremeFields prices (maxQ (prices.map fun p => p.price))).2.2
        min_discounted := minQ (prices.map (price_newOk db))
        max_discounted := maxQ (prices.map (price_newOk db))
        has_discount := true
        max_discount_percentage :=
          some (if ((prices.map (pctOk db)).filterMap id).isEmpty then 0
            else maxZ ((prices.map (pctOk db)).filterMap id))
        max_savings :=
          some (if ((prices.map (savingsOk db)).filterMap id).isEmpty then 0
            else maxQ ((prices.map (savingsOk db)).filterMap id))
        min_savings :=
          some (if ((prices.map (savingsOk db)).filterMap id).isEmpty then 0
            else minQ ((prices.map (savingsOk db)).filterMap id))
        campaign_name := (resolveOk db fp).discount_name
        discount_expires_at := (resolveOk db fp).discount_object.bind expirationAttr } := by
  simp only [pureListSummary, firstWithDiscount_eq, hfp, hD, eq_self_iff_true, if_true]

/-- C8 (confirmed): the price-range aggregation returns null for an empty
tier list; for a non-empty list (of positively priced tiers, per the data
model) it reports as raw min (resp. max) the minimum (resp. maximum) raw
tier price together with the quantity, unit and smart-pluralized unit
label (singular when the quantity is 1, otherwise the plural from the
fixed table with fallback unit + "s") of a tier attaining that
extreme. -/
theorem aggregate_minmax_and_unit_labels (db : DB) (prices : List Price)
    (hne : prices ≠ []) (hpos : ∀ p ∈ prices, 0 < p.price) :
    ProductBaseOut.resolve_price_range db [] = .ok none
    ∧ ProductBaseOut.resolve_price_range db prices = .ok (some (pureSummary db prices))
    ∧ ((pureSummary db prices).min ∈ prices.map (fun p => p.price)
        ∧ ∀ q ∈ prices.map (fun p => p.price), (pureSummary db prices).min ≤ q)
    ∧ ((pureSummary db prices).max ∈ prices.map (fun p => p.price)
        ∧ ∀ q ∈ prices.map (fun p => p.price), q ≤ (pureSummary db prices).max)
    ∧ (∃ pm ∈ prices, pm.price = (pureSummary db prices).min
        ∧ (pureSummary db prices).min_cantity = pm.quantity
        ∧ (pureSummary db prices).min_unit = some pm.unit
        ∧ (pureSummary db prices).min_unit_smart =
            some (if pm.quantity = 1 then pm.unit
              else (UNIT_PLURAL.lookup pm.unit).getD (pm.unit ++ "s")))
    ∧ (∃ px ∈ prices, px.price = (pureSummary db prices).max
        ∧ (pureSummary db prices).max_cantity = px.quantity
        ∧ (pureSummary db prices).max_unit = some px.unit
        ∧ (pureSummary db prices).max_unit_smart =
            some (if px.quantity = 1 then px.unit
              else (UNIT_PLURAL.lookup px.unit).getD (px.unit ++ "s"))) := by
  have hp : ∀ p ∈ prices, p.price ≠ 0 := fun p hp => (hpos p hp).ne'
  have hmapne : prices.map (fun p => p.price) ≠ [] := by
    cases prices with
    | nil => exact absurd rfl hne
    | cons a t => simp
  have hminspec := minQ_spec _ hmapne
  have hmaxspec := maxQ_spec _ hmapne
  have hbase := pureSummary_base_fields db prices
  refine ⟨rfl, resolve_price_range_eq db prices hne hp, ?_, ?_, ?_, ?_⟩
  · exact ⟨hbase.1 ▸ hminspec.1, fun q hq => hbase.1 ▸ hminspec.2 q hq⟩
  · exact ⟨hbase.2.1 ▸ hmaxspec.1, fun q hq => hbase.2.1 ▸ hmaxspec.2 q hq⟩
  · obtain ⟨pm0, hpm0, hpm0e⟩ := List.mem_map.mp hminspec.1
    have hfilne : (prices.filter fun p =>
        decide (p.price = minQ (prices.map fun p => p.price))) ≠ [] := by
      intro hnil
      have hmem : pm0 ∈ prices.filter fun p =>
          decide (p.price = minQ (prices.map fun p => p.price)) :=
        List.mem_filter.mpr ⟨hpm0, decide_eq_true hpm0e⟩
      rw [hnil] at hmem
      exact absurd hmem (by simp)
    obtain ⟨pl, hpl⟩ := getLast?_isSome_of_ne_nil hfilne
    have hplf := List.mem_filter.mp (getLast?_mem hpl)
    have hEF := extremeFields_eq prices (minQ (prices.map fun p => p.price))
    rw [hpl] at hEF
    refine ⟨pl, hplf.1, ?_, ?_, ?_, ?_⟩
    · rw [hbase.1]
      exact of_decide_eq_true hplf.2
    · rw [hbase.2.2.1, hEF]
    · rw [hbase.2.2.2.1, hEF]
    · rw [hbase.2.2.2.2.1, hEF]
      simp [get_unit_display_smart]
  · obtain ⟨px0, hpx0, hpx0e⟩ := List.mem_map.mp hmaxspec.1
    have hfilne : (prices.filter fun p =>
        decide (p.price = maxQ (prices.map fun p => p.price))) ≠ [] := by
      intro hnil
      have hmem : px0 ∈ prices.filter fun p =>
          decide (p.price = maxQ (prices.map fun p => p.price)) :=
        List.mem_filter.mpr ⟨hpx0, decide_eq_true hpx0e⟩
      rw [hnil] at hmem
      exact absurd hmem (by simp)
    obtain ⟨pl, hpl⟩ := getLast?_isSome_of_ne_nil hfilne
    have hplf := List.mem_filter.mp (getLast?_mem hpl)
    have hEF := extremeFields_eq prices (maxQ (prices.map fun p => p.price))
    rw [hpl] at hEF
    refine ⟨pl, hplf.1, ?_, ?_, ?_, ?_⟩
    · rw [hbase.2.1]
      exact of_decide_eq_true hplf.2
    · rw [hbase.2.2.2.2.2.1, hEF]
    · rw [hbase.2.2.2.2.2.2.1, hEF]
    · rw [hbase.2.2.2.2.2.2.2.1, hEF]
      simp [get_unit_display_smart]

/-- C8 (witness): the spec example — tiers priced 10, 25 and 8 with
quantities 100, 500 and 50 — aggregates to raw min 8 at quantity 50 and
raw max 25 at quantity 500, with the pluralized unit label. -/
theorem aggregate_minmax_witness :
    tiers8 ≠ [] ∧ tiers8.all (fun p => decide (0 < p.price)) = true ∧
    ProductBaseOut.resolve_price_range db8 tiers8 = .ok (some (pureSummary db8 tiers8)) ∧
    ((pureSummary db8 tiers8).min = 8 ∧ (pureSummary db8 tiers8).min_cantity = 50
      ∧ (pureSummary db8 tiers8).min_unit_smart = some "Unidades"
      ∧ (pureSummary db8 tiers8).max = 25 ∧ (pureSummary db8 tiers8).max_cantity = 500
      ∧ (pureSummary db8 tiers8).max_unit_smart = some "Unidades") := by
  have hpos : ∀ p ∈ tiers8, 0 < p.price := by
    intro p hp
    simp only [tiers8, prod8, List.mem_cons, List.not_mem_nil, or_false] at hp
    rcases hp with hp | hp | hp <;> rw [hp] <;> norm_num
  have h := aggregate_minmax_and_unit_labels db8 tiers8 (by simp [tiers8]) hpos
  refine ⟨by simp [tiers8], ?_, h.2.1, ?_⟩
  · rw [List.all_eq_true]
    intro p hp
    exact decide_eq_true (hpos p hp)
  · have hps : pureSummary db8 tiers8 =
        { min := 8, max := 25, min_cantity := 50, min_unit := some "Unidad",
          min_unit_smart := some "Unidades", max_cantity := 500, max_unit := some "Unidad",
          max_unit_smart := some "Unidades", min_discounted := 8, max_discounted := 25,
          has_discount := false, max_discount_percentage := none,
          min_discount_percentage := none, max_savings := none, min_savings := none,
          campaign_name := none, discount_expires_at := none } := by
      simp [pureSummary, tiers8, prod8, db8, minQ, maxQ, extremeFields,
        get_unit_display_smart, UNIT_PLURAL, resolveOk, get_best_discount_for_price,
        campaignStep, categoryStep, productStep, priceStep, selectedCampaign,
        activeCampaigns, baselineResolution, flagOk, price_newOk, firstWithDiscount]
      norm_num
    rw [hps]
    refine ⟨rfl, rfl, rfl, rfl, rfl, rfl⟩

/-- A tier resolving with a positive amount has its discount flag set. -/
lemma flag_of_pos_amount {db : DB} {p : Price}
    (h : 0 < (resolveOk db p).discount_amount) : flagOk db p = true := by
  cases hfl : (resolveOk db p).has_discount with
  | true => unfold flagOk; exact hfl
  | false =>
    exfalso
    have hb : resolveOk db p = baselineResolution := by
      unfold resolveOk at hfl ⊢
      cases hg : get_best_discount_for_price db p with
      | ok r =>
        rw [hg] at hfl
        exact flag_false_eq_baseline hg hfl
      | error e => rfl
    rw [hb] at h
    exact absurd h (by norm_num [baselineResolution])

/-- C9 (confirmed): when some tier resolves with a positive discount, the
aggregators compute max/min displayed percentage only over the tiers
whose surfaced percentage is non-null (exactly the flagged tiers),
compute max/min savings as raw minus discounted price only over flagged
tiers (so a single discounted tier yields that tier's positive savings
for both, never 0), and take the representative name and expiry from the
first flagged tier in list order — in both the detail and the list
aggregator. -/
theorem aggregate_discount_stats_over_discounted_tiers (db : DB) (prices : List Price)
    (hne : prices ≠ []) (hpos : ∀ p ∈ prices, 0 < p.price)
    (hd : ∃ p ∈ prices, 0 < (resolveOk db p).discount_amount) :
    ProductBaseOut.resolve_price_range db prices = .ok (some (pureSummary db prices))
    ∧ ProductBaseListOut.resolve_price_range db prices = .ok (some (pureListSummary db prices))
    ∧ (pureSummary db prices).has_discount = true
    ∧ ((prices.map (pctOk db)).filterMap id =
        (prices.filter (flagOk db)).map fun p => (resolveOk db p).discount_percentage)
    ∧ ((prices.map (savingsOk db)).filterMap id =
        (prices.filter (flagOk db)).map fun p => p.price - price_newOk db p)
    ∧ prices.filter (flagOk db) ≠ []
    ∧ (pureSummary db prices).max_discount_percentage =
        some (maxZ ((prices.map (pctOk db)).filterMap id))
    ∧ (pureSummary db prices).min_discount_percentage =
        some (minZ ((prices.map (pctOk db)).filterMap id))
    ∧ (pureSummary db prices).max_savings =
        some (maxQ ((prices.map (savingsOk db)).filterMap id))
    ∧ (pureSummary db prices).min_savings =
        some (minQ ((prices.map (savingsOk db)).filterMap id))
    ∧ (pureListSummary db prices).max_discount_percentage =
        some (maxZ ((prices.map (pctOk db)).filterMap id))
    ∧ (pureListSummary db prices).max_savings =
        some (maxQ ((prices.map (savingsOk db)).filterMap id))
    ∧ (pureListSummary db prices).min_savings =
        some (minQ ((prices.map (savingsOk db)).filterMap id))
    ∧ (∀ p0, prices.filter (flagOk db) = [p0] →
        (pureSummary db prices).max_savings = some (p0.price - price_newOk db p0)
        ∧ (pureSummary db prices).min_savings = some (p0.price - price_newOk db p0)
        ∧ 0 < p0.price - price_newOk db p0)
    ∧ (∀ p0, (prices.filter (flagOk db)).head? = some p0 →
        (pureSummary db prices).campaign_name = (resolveOk db p0).discount_name
        ∧ (pureSummary db prices).discount_expires_at =
            (resolveOk db p0).discount_object.bind expirationAttr
        ∧ (pureListSummary db prices).campaign_name = (resolveOk db p0).discount_name
        ∧ (pureListSummary db prices).discount_expires_at =
            (resolveOk db p0).discount_object.bind expirationAttr) := by
  have hp : ∀ p ∈ prices, p.price ≠ 0 := fun p hp => (hpos p hp).ne'
  obtain ⟨pw, hpw, hpwa⟩ := hd
  have hflag : flagOk db pw = true := flag_of_pos_amount hpwa
  have hD : ((prices.map (flagOk db)).any fun b => b) = true := by
    rw [List.any_eq_true]
    exact ⟨flagOk db pw, List.mem_map_of_mem _ hpw, hflag⟩
  have hfil_mem : pw ∈ prices.filter (flagOk db) := List.mem_filter.mpr ⟨hpw, hflag⟩
  have hfilne : prices.filter (flagOk db) ≠ [] := by
    intro h0
    rw [h0] at hfil_mem
    exact absurd hfil_mem (by simp)
  obtain ⟨fp, hfp⟩ : ∃ fp, (prices.filter (flagOk db)).head? = some fp := by
    cases hfl : prices.filter (flagOk db) with
    | nil => exact absurd hfl hfilne
    | cons a t => exact ⟨a, rfl⟩
  have hps := pureSummary_discount_eq db prices fp hD hfp
  have hpls := pureListSummary_discount_eq db prices fp hD hfp
  have hPeq : (prices.map (pctOk db)).filterMap id =
      (prices.filter (flagOk db)).map fun p => (resolveOk db p).discount_percentage := by
    have e : pctOk db = fun p =>
        if flagOk db p then some ((resolveOk db p).discount_percentage) else none := rfl
    rw [e, filterMap_map_if]
  have hSeq : (prices.map (savingsOk db)).filterMap id =
      (prices.filter (flagOk db)).map fun p => p.price - price_newOk db p := by
    have e : savingsOk db = fun p =>
        if flagOk db p then some (p.price - price_newOk db p) else none := rfl
    rw [e, filterMap_map_if]
  have hPne : (prices.map (pctOk db)).filterMap id ≠ [] := by
    rw [hPeq]
    intro h0
    rw [List.map_eq_nil_iff] at h0
    exact hfilne h0
  have hSne : (prices.map (savingsOk db)).filterMap id ≠ [] := by
    rw [hSeq]
    intro h0
    rw [List.map_eq_nil_iff] at h0
    exact hfilne h0
  have hPisE : ((prices.map (pctOk db)).filterMap id).isEmpty = false := by
    cases hE : (prices.map (pctOk db)).filterMap id with
    | nil => exact absurd hE hPne
    | cons a t => rfl
  have hSisE : ((prices.map (savingsOk db)).filterMap id).isEmpty = false := by
    cases hE : (prices.map (savingsOk db)).filterMap id with
    | nil => exact absurd hE hSne
    | cons a t => rfl
  refine ⟨resolve_price_range_eq db prices hne hp,
    resolve_price_range_list_eq db prices hne hp,
    by rw [hps], hPeq, hSeq, hfilne,
    by rw [hps]; simp only [hPisE, Bool.false_eq_true, if_false],
    by rw [hps]; simp only [hPisE, Bool.false_eq_true, if_false],
    by rw [hps]; simp only [hSisE, Bool.false_eq_true, if_false],
    by rw [hps]; simp only [hSisE, Bool.false_eq_true, if_false],
    by rw [hpls]; simp only [hPisE, Bool.false_eq_true, if_false],
    by rw [hpls]; simp only [hSisE, Bool.false_eq_true, if_false],
    by rw [hpls]; simp only [hSisE, Bool.false_eq_true, if_false],
    ?single, ?first⟩
  case single =>
    intro p0 h1
    have hS1 : (prices.map (savingsOk db)).filterMap id = [p0.price - price_newOk db p0] := by
      rw [hSeq, h1]
      rfl
    have hp0 : pw = p0 := by
      rw [h1] at hfil_mem
      simpa using hfil_mem
    have hamt : p0.price - price_newOk db p0 = (resolveOk db p0).discount_amount := by
      unfold price_newOk
      ring
    refine ⟨?_, ?_, ?_⟩
    · rw [hps]
      simp only [hS1, List.isEmpty_cons, Bool.false_eq_true, if_false, maxQ, List.foldl_nil]
    · rw [hps]
      simp only [hS1, List.isEmpty_cons, Bool.false_eq_true, if_false, minQ, List.foldl_nil]
    · rw [hamt]
      rw [← hp0]
      exact hpwa
  case first =>
    intro p0 h1
    have hfp0 : fp = p0 := Option.some.inj (hfp.symm.trans h1)
    rw [← hfp0]
    exact ⟨by rw [hps], by rw [hps], by rw [hpls], by rw [hpls]⟩

/-- C9 (witness): three tiers of which only the 500-quantity tier is
discounted (15 percent inline): both aggregate savings equal that
tier's savings 25·15/100 = 15/4 (not 0), both percentages are 15, and
the representative name/expiry come from that first (only) discounted
tier. -/
theorem aggregate_discount_stats_witness :
    tiers9 ≠ [] ∧ tiers9.all (fun p => decide (0 < p.price)) = true ∧
    ProductBaseOut.resolve_price_range db9 tiers9 = .ok (some (pureSummary db9 tiers9)) ∧
    ProductBaseListOut.resolve_price_range db9 tiers9 =
      .ok (some (pureListSummary db9 tiers9)) ∧
    (pureSummary db9 tiers9).has_discount = true ∧
    (pureSummary db9 tiers9).max_discount_percentage = some 15 ∧
    (pureSummary db9 tiers9).min_discount_percentage = some 15 ∧
    (pureSummary db9 tiers9).max_savings = some (15 / 4) ∧
    (pureSummary db9 tiers9).min_savings = some (15 / 4) ∧
    (pureSummary db9 tiers9).campaign_name = some (.priceN 500) ∧
    (pureSummary db9 tiers9).discount_expires_at = none := by
  have hpos : ∀ p ∈ tiers9, 0 < p.price := by
    intro p hp
    simp only [tiers9, prod9, List.mem_cons, List.not_mem_nil, or_false] at hp
    rcases hp with hp | hp | hp <;> rw [hp] <;> norm_num
  have hres3 : get_best_discount_for_price db9 ⟨prod9, 25, "Unidad", some 15, .Percentaje, 500⟩ =
      .ok ⟨15 / 4, 15, some .price, some (.priceN 500), true,
        some (.priceObj ⟨prod9, 25, "Unidad", some 15, .Percentaje, 500⟩)⟩ := by
    simp [get_best_discount_for_price, campaignStep, categoryStep, productStep, priceStep,
      selectedCampaign, activeCampaigns, db9, prod9, percentageDisplay, roundHalfEven]
    norm_num
  have hd : ∃ p ∈ tiers9, 0 < (resolveOk db9 p).discount_amount := by
    refine ⟨⟨prod9, 25, "Unidad", some 15, .Percentaje, 500⟩, by simp [tiers9], ?_⟩
    rw [resolveOk, hres3]
    norm_num
  have h := aggregate_discount_stats_over_discounted_tiers db9 tiers9 (by simp [tiers9])
    hpos hd
  have hflags : tiers9.filter (flagOk db9) =
      [⟨prod9, 25, "Unidad", some 15, .Percentaje, 500⟩] := by
    simp only [tiers9]
    rw [List.filter_cons, List.filter_cons, List.filter_cons, List.filter_nil]
    have f1 : flagOk db9 ⟨prod9, 10, "Unidad", none, .Amount, 100⟩ = false := rfl
    have f2 : flagOk db9 ⟨prod9, 20, "Unidad", none, .Amount, 300⟩ = false := rfl
    have f3 : flagOk db9 ⟨prod9, 25, "Unidad", some 15, .Percentaje, 500⟩ = true := by
      unfold flagOk
      rw [resolveOk, hres3]
    rw [f1, f2, f3]
    rfl
  have hsingle := h.2.2.2.2.2.2.2.2.2.2.2.2.2.1 _ hflags
  have hfirst := h.2.2.2.2.2.2.2.2.2.2.2.2.2.2 _ (by rw [hflags]; rfl)
  have hsav : (⟨prod9, 25, "Unidad", some 15, .Percentaje, 500⟩ : Price).price -
      price_newOk db9 ⟨prod9, 25, "Unidad", some 15, .Percentaje, 500⟩ = 15 / 4 := by
    unfold price_newOk
    rw [resolveOk, hres3]
    norm_num
  have hpcts : (tiers9.map (pctOk db9)).filterMap id = [15] := by
    rw [h.2.2.2.1, hflags]
    simp only [List.map_cons, List.map_nil]
    rw [resolveOk, hres3]
  refine ⟨by simp [tiers9], ?_, h.1, h.2.1, h.2.2.1, ?_, ?_, ?_, ?_, ?_, ?_⟩
  · rw [List.all_eq_true]
    intro p hp
    exact decide_eq_true (hpos p hp)
  · rw [h.2.2.2.2.2.2.1, hpcts]
    rfl
  · rw [h.2.2.2.2.2.2.2.1, hpcts]
    rfl
  · rw [hsingle.1, hsav]
  · rw [hsingle.2.1, hsav]
  · rw [hfirst.1, resolveOk, hres3]
  · rw [hfirst.2.1, resolveOk, hres3]
    rfl

/-- C10 (confirmed): when several tiers share the extreme raw price, the
aggregation loop lets each later matching tier overwrite the recorded
fields, so the reported quantity and unit label are those of the last
matching tier in the list's order — not the first. -/
theorem aggregate_extreme_tie_last_wins (db : DB) (prices : List Price)
    (hne : prices ≠ []) (hpos : ∀ p ∈ prices, 0 < p.price)
    (htie : 2 ≤ (prices.filter fun p =>
      decide (p.price = minQ (prices.map fun p => p.price))).length) :
    ProductBaseOut.resolve_price_range db prices = .ok (some (pureSummary db prices))
    ∧ (∀ p0, (prices.filter fun p =>
          decide (p.price = minQ (prices.map fun p => p.price))).getLast? = some p0 →
        (pureSummary db prices).min_cantity = p0.quantity
        ∧ (pureSummary db prices).min_unit = some p0.unit
        ∧ (pureSummary db prices).min_unit_smart = some (get_unit_display_smart p0))
    ∧ (∀ pf p0, (prices.filter fun p =>
          decide (p.price = minQ (prices.map fun p => p.price))).head? = some pf →
        (prices.filter fun p =>
          decide (p.price = minQ (prices.map fun p => p.price))).getLast? = some p0 →
        pf.quantity ≠ p0.quantity →
        (pureSummary db prices).min_cantity ≠ pf.quantity)
    ∧ (∀ p0, (prices.filter fun p =>
          decide (p.price = maxQ (prices.map fun p => p.price))).getLast? = some p0 →
        (pureSummary db prices).max_cantity = p0.quantity
        ∧ (pureSummary db prices).max_unit = some p0.unit
        ∧ (pureSummary db prices).max_unit_smart = some (get_unit_display_smart p0)) := by
  have hp : ∀ p ∈ prices, p.price ≠ 0 := fun p hp => (hpos p hp).ne'
  have hbase := pureSummary_base_fields db prices
  have hlast_min : ∀ p0, (prices.filter fun p =>
      decide (p.price = minQ (prices.map fun p => p.price))).getLast? = some p0 →
      (pureSummary db prices).min_cantity = p0.quantity
      ∧ (pureSummary db prices).min_unit = some p0.unit
      ∧ (pureSummary db prices).min_unit_smart = some (get_unit_display_smart p0) := by
    intro p0 h
    have hEF := extremeFields_eq prices (minQ (prices.map fun p => p.price))
    rw [h] at hEF
    exact ⟨by rw [hbase.2.2.1, hEF], by rw [hbase.2.2.2.1, hEF],
      by rw [hbase.2.2.2.2.1, hEF]⟩
  refine ⟨resolve_price_range_eq db prices hne hp, hlast_min, ?_, ?_⟩
  · intro pf p0 hh hl hq
    rw [(hlast_min p0 hl).1]
    intro he
    exact hq he.symm
  · intro p0 h
    have hEF := extremeFields_eq prices (maxQ (prices.map fun p => p.price))
    rw [h] at hEF
    exact ⟨by rw [hbase.2.2.2.2.2.1, hEF], by rw [hbase.2.2.2.2.2.2.1, hEF],
      by rw [hbase.2.2.2.2.2.2.2.1, hEF]⟩

/-- C10 (witness): two tiers share price 5 at quantities 10 and 20; the
reported minimum-tier quantity is 20 (the last matching tier), not 10
(the first), with the pluralized unit label. -/
theorem aggregate_extreme_tie_witness :
    tiers10 ≠ [] ∧ tiers10.all (fun p => decide (0 < p.price)) = true ∧
    2 ≤ (tiers10.filter fun p =>
      decide (p.price = minQ (tiers10.map fun p => p.price))).length ∧
    (pureSummary db10 tiers10).min_cantity = 20 ∧
    (pureSummary db10 tiers10).min_cantity ≠ 10 ∧
    (pureSummary db10 tiers10).min_unit_smart = some "Cajas" := by
  have hpos : ∀ p ∈ tiers10, 0 < p.price := by
    intro p hp
    simp only [tiers10, prod10, List.mem_cons, List.not_mem_nil, or_false] at hp
    rcases hp with hp | hp <;> rw [hp] <;> norm_num
  have hmin : minQ (tiers10.map fun p => p.price) = 5 := by
    norm_num [tiers10, prod10, minQ]
  have hfil : (tiers10.filter fun p =>
      decide (p.price = minQ (tiers10.map fun p => p.price))) = tiers10 := by
    rw [show (fun p : Price => decide (p.price = minQ (tiers10.map fun p => p.price))) =
      (fun p : Price => decide (p.price = 5)) by rw [hmin]]
    simp [tiers10, prod10]
  have htie : 2 ≤ (tiers10.filter fun p =>
      decide (p.price = minQ (tiers10.map fun p => p.price))).length := by
    rw [hfil]
    simp [tiers10]
  have h := aggregate_extreme_tie_last_wins db10 tiers10 (by simp [tiers10]) hpos htie
  have h2 := h.2.1 ⟨prod10, 5, "Caja", none, .Amount, 20⟩ (by rw [hfil]; rfl)
  refine ⟨by simp [tiers10], ?_, htie, ?_, ?_, ?_⟩
  · rw [List.all_eq_true]
    intro p hp
    exact decide_eq_true (hpos p hp)
  · rw [h2.1]
  · rw [h2.1]
    decide
  · rw [h2.2.2]
    rfl

end Mavi
